import Mathlib

/-!
# minikube, `cmd/minikube/cmd/config/util.go`

A shallow embedding of the setter pipeline (`run`, `findSetting`, `SetString`,
`SetInt`, `SetBool`) and of the addon toggle (`EnableOrDisableAddon`), with the
properties of the design document stated over it.

Conventions of the embedding:

* a Go `error` result is an `Option GoError`, `none` being Go's `nil`;
* code with side effects passes its state explicitly: a setter maps the state
  before the call to its error result and the state after the call;
* the configuration store is a Go map, nil or allocated; an assignment to an
  entry of the nil map panics, so a set function returns or panics;
* Go strings are Lean strings; the standard-library parsers look at them one
  character at a time, and every character outside ASCII is, like each of the
  bytes of its UTF-8 encoding, neither a digit nor a letter.
-/

namespace Minikube

/-! ## Go errors -/

/-- The two sentinel errors of Go's `strconv` package. -/
inductive NumErrKind
  | ErrSyntax
  | ErrRange
  deriving DecidableEq, Repr

/-- The Go error values that util.go handles: `*strconv.NumError` (its fields
`Func`, `Num`, `Err`), the plain text error made by `fmt.Errorf` without a
wrapping verb, and the error made by `errors.Wrapf` of `github.com/pkg/errors`
around a cause. -/
inductive GoError
  | numError (Func : String) (Num : String) (Err : NumErrKind)
  | errorString (s : String)
  | withMessage (cause : GoError) (msg : String)
  deriving DecidableEq, Repr

/-- The `Error()` text of the strconv sentinels. -/
def NumErrKind.Error : NumErrKind → String
  | .ErrSyntax => "invalid syntax"
  | .ErrRange => "value out of range"

/-- The `Error()` method. `Quote` stands for `strconv.Quote`, which the
standard library applies to the offending input of a `NumError`; it is taken
as a parameter. -/
def GoError.Error (Quote : String → String) : GoError → String
  | .numError f n e => "strconv." ++ f ++ ": parsing " ++ Quote n ++ ": " ++ e.Error
  | .errorString s => s
  | .withMessage cause msg => msg ++ ": " ++ cause.Error Quote

/-- The text `fmt` produces for a slice of errors under the verb `%v`: the
`Error()` texts of the elements, separated by one space, between square
brackets. -/
def sprintV (Quote : String → String) (errs : List GoError) : String :=
  "[" ++ " ".intercalate (errs.map (GoError.Error Quote)) ++ "]"

/-- The result of `errors.Wrapf(err, format, args...)`, `msg` being the
formatted message: `nil` for a `nil` cause. -/
def Wrapf (err : Option GoError) (msg : String) : Option GoError :=
  match err with
  | none => none
  | some e => some (.withMessage e msg)

/-! ## The setter pipeline -/

/-- The Go type `setFn = func(string, string) error`. A setter is a closure over
mutable state (the configuration store); `σ` is that state. -/
abbrev setFn (σ : Type) := String → String → σ → Option GoError × σ

/-- The `for _, fn := range fns` loop of `run`: `errors` is the slice collected
so far, `s` the state before the next call. -/
def runLoop {σ : Type} (name value : String) :
    List (setFn σ) → List GoError → σ → List GoError × σ
  | [], errors, s => (errors, s)
  | fn :: fns, errors, s =>
    match fn name value s with
    | (some err, s1) => runLoop name value fns (errors ++ [err]) s1
    | (none, s1) => runLoop name value fns errors s1

/-- The function `run` of util.go. -/
def run {σ : Type} (Quote : String → String) (name value : String)
    (fns : List (setFn σ)) (s : σ) : Option GoError × σ :=
  match runLoop name value fns [] s with
  | (errors, s1) =>
    if errors.length > 0 then
      (some (.errorString (sprintV Quote errors)), s1)
    else
      (none, s1)

/-- The error results of the successive invocations `fn(name, value)` when the
setters of `fns` are called one after the other from state `s`, each on the
state its predecessor left: the observable record of a run. -/
def invocations {σ : Type} (name value : String) : List (setFn σ) → σ → List (Option GoError)
  | [], _ => []
  | fn :: fns, s => (fn name value s).1 :: invocations name value fns (fn name value s).2

/-- One entry of a call log: the position of the invoked setter in the list and
the two arguments it received. -/
abbrev Call := Nat × String × String

/-- The setter `fn`, instrumented: it behaves as `fn` and appends to a call log
its position `i` and the arguments it was actually given. -/
def logCall {σ : Type} (i : Nat) (fn : setFn σ) : setFn (σ × List Call) :=
  fun n v st =>
    match fn n v st.1 with
    | (err, s1) => (err, (s1, st.2 ++ [(i, n, v)]))

/-- Instrument every setter of a list, from position `i` on. -/
def loggedFrom {σ : Type} : Nat → List (setFn σ) → List (setFn (σ × List Call))
  | _, [] => []
  | i, fn :: fns => logCall i fn :: loggedFrom (i + 1) fns

/-- Instrument every setter of a list with its index. -/
def logged {σ : Type} (fns : List (setFn σ)) : List (setFn (σ × List Call)) :=
  loggedFrom 0 fns

/-! ## The setting catalog -/

/-- Modelled from the spec: the type declaration of `Setting` (it lives in
config.go, outside these sources). The design document gives it as a name with
an ordered list of setter functions. -/
structure Setting (σ : Type) where
  name : String
  setters : List (setFn σ)

/-- The Go zero value `Setting{}`. -/
def Setting.zero {σ : Type} : Setting σ := ⟨"", []⟩

/-- The scan `for _, s := range settings` of `findSetting`: the first entry
whose name is `name`, if any. -/
def findSettingLoop {σ : Type} (name : String) : List (Setting σ) → Option (Setting σ)
  | [] => none
  | s :: rest => if name = s.name then some s else findSettingLoop name rest

/-- The function `findSetting` of util.go. The package variable `settings` it
reads is passed in, and handed back as the catalog after the call. -/
def findSetting {σ : Type} (settings : List (Setting σ)) (name : String) :
    (Setting σ × Option GoError) × List (Setting σ) :=
  match findSettingLoop name settings with
  | some s => ((s, none), settings)
  | none => ((Setting.zero, some (.errorString ("Property name " ++ name ++ " not found"))), settings)

/-! ## The standard-library parsers -/

/-- The digit value `strconv.ParseUint` gives one character: `d - 48` for a
decimal digit, ten and up for a letter, nothing for any other character. -/
def digitVal (d : Char) : Option Nat :=
  if 48 ≤ d.toNat ∧ d.toNat ≤ 57 then some (d.toNat - 48)
  else if 97 ≤ d.toNat ∧ d.toNat ≤ 122 then some (d.toNat - 97 + 10)
  else if 65 ≤ d.toNat ∧ d.toNat ≤ 90 then some (d.toNat - 65 + 10)
  else none

/-- The digit loop of `strconv.ParseUint` at base 10: `n` is the 64-bit
accumulator, `maxVal` the largest value of the requested size. The result is the
pair the function returns, the number and the error kind (`none` for `nil`). -/
def parseUintLoop (maxVal : Nat) : List Char → Nat → Nat × Option NumErrKind
  | [], n => (n, none)
  | d :: rest, n =>
    match digitVal d with
    | none => (0, some .ErrSyntax)
    | some v =>
      if v ≥ 10 then (0, some .ErrSyntax)
      else if n ≥ (2 ^ 64 - 1) / 10 + 1 then (2 ^ 64 - 1, some .ErrRange)
      else
        let n10 := (n * 10) % 2 ^ 64
        let n1 := (n10 + v) % 2 ^ 64
        if n1 < n10 ∨ n1 > maxVal then (2 ^ 64 - 1, some .ErrRange)
        else parseUintLoop maxVal rest n1

/-- The call `strconv.ParseUint(s, 10, bitSize)` for a `bitSize` of 32 or 64,
`s` given by its characters. -/
def ParseUint (s : List Char) (bitSize : Nat) : Nat × Option NumErrKind :=
  if s.length < 1 then (0, some .ErrSyntax)
  else parseUintLoop (((2 ^ bitSize) % 2 ^ 64 + 2 ^ 64 - 1) % 2 ^ 64) s 0

/-- The second half of `strconv.ParseInt` at base 10, headed "convert unsigned
and check range" in the library: `ParseUint` on the digits, then the range
check of the signed type; `neg` tells whether a minus sign was picked off. The
result is the number and the error kind. -/
def convertSigned (neg : Bool) (digits : List Char) (bitSize : Nat) : Int × Option NumErrKind :=
  match ParseUint digits bitSize with
  | (_, some .ErrSyntax) => (0, some .ErrSyntax)
  | (un, _) =>
    let cutoff := 2 ^ (bitSize - 1)
    if neg = false ∧ un ≥ cutoff then ((cutoff : Int) - 1, some .ErrRange)
    else if neg = true ∧ un > cutoff then (- (cutoff : Int), some .ErrRange)
    else if neg = true then (- (un : Int), none)
    else ((un : Int), none)

/-- The call `strconv.ParseInt(s, 10, bitSize)` for a `bitSize` of 32 or 64: the
empty string is a syntax error; a leading `+` or `-` is picked off; the rest is
converted and checked against the range. -/
def ParseInt (s : List Char) (bitSize : Nat) : Int × Option NumErrKind :=
  match s with
  | [] => (0, some .ErrSyntax)
  | c :: rest =>
    if c = '+' then convertSigned false rest bitSize
    else if c = '-' then convertSigned true rest bitSize
    else convertSigned false s bitSize

/-- The function `strconv.Atoi`, shorthand for `ParseInt(s, 10, 0)`; `IntSize` is
`strconv.IntSize`, the width of `int` on the platform (32 or 64). A failure is
reported as a `NumError` carrying the whole input; its `Func` field is that
of `ParseInt`, as in the library of the time (later releases name `Atoi`). -/
def Atoi (IntSize : Nat) (s : String) : Int × Option GoError :=
  match ParseInt s.toList IntSize with
  | (i, none) => (i, none)
  | (i, some k) => (i, some (.numError "ParseInt" s k))

/-- The function `strconv.ParseBool`: it accepts 1, t, T, TRUE, true, True and 0,
f, F, FALSE, false, False; any other value is a syntax error. -/
def ParseBool (str : String) : Bool × Option GoError :=
  if str = "1" ∨ str = "t" ∨ str = "T" ∨ str = "true" ∨ str = "TRUE" ∨ str = "True" then
    (true, none)
  else if str = "0" ∨ str = "f" ∨ str = "F" ∨ str = "false" ∨ str = "FALSE" ∨ str = "False" then
    (false, none)
  else
    (false, some (.numError "ParseBool" str .ErrSyntax))

/-! ## The configuration store and the set functions -/

/-- A value held by the store: Go's `interface{}` restricted to the three types
the set functions store. -/
inductive Value
  | str (s : String)
  | int (i : Int)
  | bool (b : Bool)
  deriving DecidableEq, Repr

/-- The contents of an allocated map: the lookup from keys to the values
present. -/
abbrev Entries := String → Option Value

/-- The type `config.MinikubeConfig`, a `map[string]interface{}`: a value of the
type is the nil map or an allocated map with its contents. -/
inductive MinikubeConfig
  | nil
  | alloc (entries : Entries)

/-- The map read `m[k]`: the nil map holds no key. -/
def MinikubeConfig.get : MinikubeConfig → String → Option Value
  | .nil, _ => none
  | .alloc entries, k => entries k

/-- The map assignment `m[name] = v`: the map after it, or `none` when the
assignment panics, which it does on the nil map. -/
def MinikubeConfig.assign : MinikubeConfig → String → Value → Option MinikubeConfig
  | .nil, _, _ => none
  | .alloc entries, name, v => some (.alloc (fun k => if k = name then some v else entries k))

/-- How a call of a set function ends: it returns an error result and leaves
the store `m`, or it panics on the assignment to an entry of the nil map. -/
inductive SetOutcome
  | returned (err : Option GoError) (m : MinikubeConfig)
  | panicked

/-- The function `SetString` of util.go. -/
def SetString (m : MinikubeConfig) (name : String) (val : String) : SetOutcome :=
  match m.assign name (.str val) with
  | none => .panicked
  | some m1 => .returned none m1

/-- The function `SetInt` of util.go. -/
def SetInt (IntSize : Nat) (m : MinikubeConfig) (name : String) (val : String) : SetOutcome :=
  match Atoi IntSize val with
  | (_, some err) => .returned (some err) m
  | (i, none) =>
    match m.assign name (.int i) with
    | none => .panicked
    | some m1 => .returned none m1

/-- The function `SetBool` of util.go. -/
def SetBool (m : MinikubeConfig) (name : String) (val : String) : SetOutcome :=
  match ParseBool val with
  | (_, some err) => .returned (some err) m
  | (b, none) =>
    match m.assign name (.bool b) with
    | none => .panicked
    | some m1 => .returned none m1

/-- A set function bound to the store it writes, the closure
`func(name, value) error { return set(m, name, value) }` of type `setFn`. The
state is the store, or `none` once a call has panicked: `run` does not recover
a panic, so from then on no setter runs and no error result is returned. -/
def onStore (set : MinikubeConfig → String → String → SetOutcome) :
    setFn (Option MinikubeConfig) :=
  fun name value st =>
    match st with
    | none => (none, none)
    | some m =>
      match set m name value with
      | .returned err m1 => (err, some m1)
      | .panicked => (none, none)

/-! ## The addon toggle -/

/-- Modelled from the spec: the type declaration of `assets.Addon` (package
assets is outside these sources). The design document gives it as a name with
an ordered list of files, each a content, a target path and permission bits. -/
structure Addon where
  name : String
  files : List (String × String × Nat)
  deriving DecidableEq, Repr

/-- A `drivers.Driver` of libmachine, known by the machine it drives. -/
structure Driver where
  machine : String
  deriving DecidableEq, Repr

/-- A loaded `*host.Host` of libmachine; util.go reads its field `Driver`. -/
structure Host where
  Driver : Driver
  deriving DecidableEq, Repr

/-- An open SSH session, the `*ssh.Client` made by `sshutil.NewSSHClient`. -/
structure SSHClient where
  driver : Driver
  deriving DecidableEq, Repr

/-- Modelled from the spec: what a call of `cluster.EnsureMinikubeRunningOrExit`
does (package cluster is outside these sources). The design document has the
cluster guard either confirm that the cluster is running, and then the call
returns (`none`), or end the operation with a fatal precondition failure, the
exit of the process under some status (`some status`). The call hands no result
to its caller. -/
abbrev GuardOutcome := Option Nat

/-- What the collaborators of `EnableOrDisableAddon` answer during one call: each
is called at most once, so one answer per collaborator describes the world.

* `guard`: what the cluster guard `cluster.EnsureMinikubeRunningOrExit` does, see
  `GuardOutcome`;
* `Addons`: the catalog `assets.Addons`, a map from addon names to addons;
* `load`: the result of `cluster.CheckIfApiExistsAndLoad`, a host or an error;
* `NewSSHClient`, `TransferAddon`, `DeleteAddon`: the functions of package
  sshutil. -/
structure World where
  guard : GuardOutcome
  Addons : String → Option Addon
  load : Except GoError Host
  NewSSHClient : Driver → Except GoError SSHClient
  TransferAddon : Option Addon → SSHClient → Option GoError
  DeleteAddon : Option Addon → SSHClient → Option GoError

/-- The calls to collaborators, and to the two helper functions of util.go,
that a call of `EnableOrDisableAddon` makes, in the order it makes them. The
last one, `SSHClientClose`, is the closing of an SSH session: it belongs to the
calls a toggle could make, and util.go contains no such call. -/
inductive Event
  | NewClient
  | Close
  | EnsureMinikubeRunningOrExit
  | AddonsLookup (name : String)
  | CheckIfApiExistsAndLoad
  | transferAddonViaDriver (addon : Option Addon) (d : Driver)
  | deleteAddonViaDriver (addon : Option Addon) (d : Driver)
  | NewSSHClient (d : Driver)
  | TransferAddon (addon : Option Addon) (client : SSHClient)
  | DeleteAddon (addon : Option Addon) (client : SSHClient)
  | SSHClientClose (client : SSHClient)
  deriving DecidableEq, Repr

/-- How a call of `EnableOrDisableAddon` ends: it returns an error result, or the
process exits inside the cluster guard, or the call panics on a nil pointer. -/
inductive Outcome
  | returned (err : Option GoError)
  | exited (status : Nat)
  | panicked
  deriving DecidableEq, Repr

/-- The function `deleteAddonViaDriver` of util.go: its error result and the
calls it made. -/
def deleteAddonViaDriver (w : World) (addon : Option Addon) (d : Driver) :
    Option GoError × List Event :=
  match w.NewSSHClient d with
  | .error err => (some err, [.NewSSHClient d])
  | .ok client =>
    match w.DeleteAddon addon client with
    | some err => (some err, [.NewSSHClient d, .DeleteAddon addon client])
    | none => (none, [.NewSSHClient d, .DeleteAddon addon client])

/-- The function `transferAddonViaDriver` of util.go: its error result and the
calls it made. -/
def transferAddonViaDriver (w : World) (addon : Option Addon) (d : Driver) :
    Option GoError × List Event :=
  match w.NewSSHClient d with
  | .error err => (some err, [.NewSSHClient d])
  | .ok client =>
    match w.TransferAddon addon client with
    | some err => (some err, [.NewSSHClient d, .TransferAddon addon client])
    | none => (none, [.NewSSHClient d, .TransferAddon addon client])

/-- The function `EnableOrDisableAddon` of util.go: how the call ends and the
calls it made. Statement by statement:

* `ParseBool`; on an error `errors.Wrapf` is evaluated and its result dropped;
* `NewClient`, with `api.Close` deferred: it runs when the function returns or
  panics, not when the process exits;
* the cluster guard;
* the catalog lookup, then `if err != nil { return err }` on the error of
  `ParseBool`;
* `CheckIfApiExistsAndLoad`, whose error is not tested before `host.Driver` is
  read: without a host that read is a nil pointer dereference;
* the transfer or the delete, its error wrapped with the addon name. -/
def EnableOrDisableAddon (w : World) (name : String) (val : String) :
    Outcome × List Event :=
  match ParseBool val with
  | (enable, err) =>
    let _dropped := Wrapf err ("error attempted to parse enabled/disable value addon " ++ name)
    match w.guard with
    | some status => (.exited status, [.NewClient, .EnsureMinikubeRunningOrExit])
    | none =>
      let addon := w.Addons name
      let pre : List Event := [.NewClient, .EnsureMinikubeRunningOrExit, .AddonsLookup name]
      match err with
      | some e => (.returned (some e), pre ++ [.Close])
      | none =>
        match w.load with
        | .error _ => (.panicked, pre ++ [.CheckIfApiExistsAndLoad, .Close])
        | .ok host =>
          if enable then
            match transferAddonViaDriver w addon host.Driver with
            | (some e, calls) =>
              (.returned (Wrapf (some e) ("Error transferring addon " ++ name ++ " to VM")),
                pre ++ [.CheckIfApiExistsAndLoad, .transferAddonViaDriver addon host.Driver]
                  ++ calls ++ [.Close])
            | (none, calls) =>
              (.returned none,
                pre ++ [.CheckIfApiExistsAndLoad, .transferAddonViaDriver addon host.Driver]
                  ++ calls ++ [.Close])
          else
            match deleteAddonViaDriver w addon host.Driver with
            | (some e, calls) =>
              (.returned (Wrapf (some e) ("Error deleting addon " ++ name ++ " from VM")),
                pre ++ [.CheckIfApiExistsAndLoad, .deleteAddonViaDriver addon host.Driver]
                  ++ calls ++ [.Close])
            | (none, calls) =>
              (.returned none,
                pre ++ [.CheckIfApiExistsAndLoad, .deleteAddonViaDriver addon host.Driver]
                  ++ calls ++ [.Close])

/-- The calls that are remote I/O or lead to it: the two helper functions, the
opening of an SSH session, and the transfer or deletion of addon files. -/
def Event.isRemote : Event → Bool
  | .transferAddonViaDriver _ _ => true
  | .deleteAddonViaDriver _ _ => true
  | .NewSSHClient _ => true
  | .TransferAddon _ _ => true
  | .DeleteAddon _ _ => true
  | _ => false

/-- A world with a running cluster: the guard returns, the catalog knows the
addon `dashboard`, the host loads, and every SSH operation succeeds. -/
def runningCluster : World where
  guard := none
  Addons := fun n =>
    if n = "dashboard" then
      some ⟨"dashboard", [("dashboard-rc.yaml", "/etc/kubernetes/addons/dashboard-rc.yaml", 416)]⟩
    else none
  load := .ok ⟨⟨"minikube"⟩⟩
  NewSSHClient := fun d => .ok ⟨d⟩
  TransferAddon := fun _ _ => none
  DeleteAddon := fun _ _ => none

/-- A world with a stopped cluster: as `runningCluster`, except that the guard
ends the process, with the exit status 0 that `EnableOrDisableAddon` hands it. -/
def stoppedCluster : World := { runningCluster with guard := some 0 }

/-- A world as `runningCluster` in which the host does not load:
`CheckIfApiExistsAndLoad` returns an error and no host. -/
def hostNotLoaded : World :=
  { runningCluster with load := .error (.errorString "Error loading api for: minikube") }

/-- A world as `runningCluster` in which the remote copy and the remote removal
of the addon files fail. -/
def failingRemote : World :=
  { runningCluster with
    TransferAddon := fun _ _ => some (.errorString "Error running scp command")
    DeleteAddon := fun _ _ => some (.errorString "Error running rm command") }

/-- A world as `runningCluster` in which no SSH session can be opened. -/
def noSession : World :=
  { runningCluster with NewSSHClient := fun _ => .error (.errorString "Error dialing tcp via ssh client") }

/-- The calls of the two helper functions `transferAddonViaDriver` and
`deleteAddonViaDriver`. -/
def Event.isHelperCall : Event → Bool
  | .transferAddonViaDriver _ _ => true
  | .deleteAddonViaDriver _ _ => true
  | _ => false

/-! ## Notions of the design document -/

/-- The number written by a list of decimal digits, continuing from `n`. -/
def decimalFrom (n : Nat) (digits : List Char) : Nat :=
  digits.foldl (fun acc c => 10 * acc + (c.toNat - 48)) n

/-- The sign and the digits of a numeral: a leading `+` or `-` is the sign, all
the rest are the digits. The first component tells whether the sign is `-`. -/
def splitSign (raw : List Char) : Bool × List Char :=
  match raw with
  | [] => (false, [])
  | c :: rest => if c = '+' then (false, rest) else if c = '-' then (true, rest) else (false, raw)

/-- The design document's base-10 integers: an optional sign followed by one or
more decimal digits. -/
def isBase10Literal (raw : List Char) : Bool :=
  !(splitSign raw).2.isEmpty && (splitSign raw).2.all Char.isDigit

/-- The integer a base-10 literal denotes. -/
def base10Value (raw : List Char) : Int :=
  if (splitSign raw).1 then - (decimalFrom 0 (splitSign raw).2 : Int)
  else (decimalFrom 0 (splitSign raw).2 : Int)

/-- The range of the Go type `int` of width `IntSize`. -/
def inIntRange (IntSize : Nat) (i : Int) : Prop :=
  - (2 : Int) ^ (IntSize - 1) ≤ i ∧ i ≤ (2 : Int) ^ (IntSize - 1) - 1

instance decidableInIntRange (IntSize : Nat) (i : Int) : Decidable (inIntRange IntSize i) := by
  unfold inIntRange; infer_instance

/-- The design document's reading of the boolean tokens: `raw` equals, ignoring
letter case, one of true, false, 1, 0, t, f. -/
def isBoolTokenIgnoringCase (raw : String) : Bool :=
  ["true", "false", "1", "0", "t", "f"].any
    (fun tok => raw.toList.map Char.toLower == tok.toList)

/-- The six spellings `strconv.ParseBool` accepts as true. -/
def trueTokens : List String := ["1", "t", "T", "true", "TRUE", "True"]

/-- The six spellings `strconv.ParseBool` accepts as false. -/
def falseTokens : List String := ["0", "f", "F", "false", "FALSE", "False"]

/-- The design document's release of sessions, read on the calls of one toggle
in world `w`: for every call of `NewSSHClient` that opened a session, the calls
contain the closing of that session. -/
def sessionsClosed (w : World) (calls : List Event) : Bool :=
  calls.all fun ev =>
    match ev with
    | .NewSSHClient d =>
      match w.NewSSHClient d with
      | .ok client => calls.contains (.SSHClientClose client)
      | .error _ => true
    | _ => true

/-! ## Properties of `run` -/

/-- The states a run goes through do not depend on the collected errors: the
loop ends with the errors it started from followed by the non-nil results of
the invocations in order, in the state reached by calling the setters one
after the other. -/
theorem runLoop_eq {σ : Type} (name value : String) (fns : List (setFn σ)) :
    ∀ (errors : List GoError) (s : σ),
      runLoop name value fns errors s =
        (errors ++ (invocations name value fns s).reduceOption,
          fns.foldl (fun st fn => (fn name value st).2) s) := by
  induction fns with
  | nil => intro errors s; simp [runLoop, invocations]
  | cons fn fns ih =>
    intro errors s
    unfold runLoop
    rcases h : fn name value s with ⟨err, s1⟩
    cases err with
    | none => simp [ih, invocations, h, List.reduceOption_cons_of_none]
    | some e => simp [ih, invocations, h, List.reduceOption_cons_of_some]

/-- The error result of `run` in terms of the invocation record. -/
theorem run_fst {σ : Type} (Quote : String → String) (name value : String)
    (fns : List (setFn σ)) (s : σ) :
    (run Quote name value fns s).1 =
      if (invocations name value fns s).reduceOption.length > 0 then
        some (.errorString (sprintV Quote (invocations name value fns s).reduceOption))
      else none := by
  unfold run
  rw [runLoop_eq]
  simp only [List.nil_append]
  split_ifs <;> rfl

/-- The state after `run`. -/
theorem run_snd {σ : Type} (Quote : String → String) (name value : String)
    (fns : List (setFn σ)) (s : σ) :
    (run Quote name value fns s).2 = fns.foldl (fun st fn => (fn name value st).2) s := by
  unfold run
  rw [runLoop_eq]
  simp only [List.nil_append]
  split_ifs <;> rfl

/-- No error was collected exactly when every result is nil. -/
theorem reduceOption_eq_nil_iff {α : Type} (l : List (Option α)) :
    l.reduceOption = [] ↔ ∀ r ∈ l, r = none := by
  induction l with
  | nil => simp
  | cons a l ih =>
    cases a with
    | none => simp [List.reduceOption_cons_of_none, ih]
    | some x => simp [List.reduceOption_cons_of_some]

/-- The collected values, wrapped again, are the non-nil results in order. -/
theorem reduceOption_map_some {α : Type} (l : List (Option α)) :
    l.reduceOption.map some = l.filter (fun r => r.isSome) := by
  induction l with
  | nil => simp
  | cons a l ih =>
    cases a with
    | none => simp [List.reduceOption_cons_of_none, ih]
    | some x => simp [List.reduceOption_cons_of_some, ih]

/-- The instrumented setters record one call each, with their index and the
arguments of the run, and otherwise behave as the setters themselves. -/
theorem runLoop_loggedFrom {σ : Type} (name value : String) (fns : List (setFn σ)) :
    ∀ (i : Nat) (errors : List GoError) (s : σ) (log : List Call),
      runLoop name value (loggedFrom i fns) errors (s, log) =
        ((runLoop name value fns errors s).1,
          ((runLoop name value fns errors s).2,
            log ++ (List.range' i fns.length).map (fun j => (j, name, value)))) := by
  induction fns with
  | nil => intro i errors s log; simp [runLoop, loggedFrom]
  | cons fn fns ih =>
    intro i errors s log
    simp only [loggedFrom, runLoop, logCall]
    rcases h : fn name value s with ⟨err, s1⟩
    cases err with
    | none => simp [ih, List.range'_succ]
    | some e => simp [ih, List.range'_succ]

/-- Claim C1: `run` returns nil if and only if every invocation `fn(name, value)`
made during the run returns nil; on the empty setter list it returns nil. -/
theorem run_nil_iff_all_nil {σ : Type} (Quote : String → String) (name value : String)
    (fns : List (setFn σ)) (s : σ) :
    ((run Quote name value fns s).1 = none ↔
        ∀ r ∈ invocations name value fns s, r = none) ∧
      (run Quote name value ([] : List (setFn σ)) s).1 = none := by
  constructor
  · rw [run_fst, ← reduceOption_eq_nil_iff]
    split_ifs with h
    · simp only [reduceCtorEq, false_iff]
      intro h0
      rw [h0] at h
      simp at h
    · simp only [true_iff]
      exact List.length_eq_zero.mp (by omega)
  · rw [run_fst]
    simp [invocations]

/-- Claim C2: `run` calls every setter of `fns` exactly once, in list order, each
with the arguments `(name, value)`, whether or not earlier setters failed. The
state after the run is the one reached by calling the setters one after the
other; and with every setter instrumented to log its index and the arguments it
receives, the log after the run lists the indices `0 .. len(fns) - 1` in order,
each with `(name, value)`, so it has `len(fns)` entries, while result and state
are those of the run without instrumentation. -/
theorem run_calls_each_setter_once {σ : Type} (Quote : String → String)
    (name value : String) (fns : List (setFn σ)) (s : σ) :
    (run Quote name value fns s).2 = fns.foldl (fun st fn => (fn name value st).2) s ∧
      (run Quote name value (logged fns) (s, [])).2.2 =
        (List.range fns.length).map (fun j => (j, name, value)) ∧
      ((run Quote name value (logged fns) (s, [])).2.2).length = fns.length ∧
      (invocations name value fns s).length = fns.length ∧
      (run Quote name value (logged fns) (s, [])).1 = (run Quote name value fns s).1 ∧
      (run Quote name value (logged fns) (s, [])).2.1 = (run Quote name value fns s).2 := by
  have hlog : ∀ (l : List (setFn σ)) (t : σ), (invocations name value l t).length = l.length := by
    intro l
    induction l with
    | nil => intro t; simp [invocations]
    | cons f l ih => intro t; simp [invocations, ih]
  have hrun : run Quote name value (logged fns) (s, []) =
      ((run Quote name value fns s).1, ((run Quote name value fns s).2,
        (List.range fns.length).map (fun j => (j, name, value)))) := by
    unfold run logged
    rw [runLoop_loggedFrom]
    rcases runLoop name value fns [] s with ⟨errors, s1⟩
    simp only [List.nil_append, List.range_eq_range']
    split_ifs <;> rfl
  refine ⟨run_snd Quote name value fns s, ?_, ?_, hlog fns s, ?_, ?_⟩
  · rw [hrun]
  · rw [hrun]; simp
  · rw [hrun]
  · rw [hrun]

/-- Claim C3: when at least one setter rejects `(name, value)`, `run` returns a
non-nil error built from the slice of collected errors; that slice is not empty
and holds exactly the non-nil results of the invocations, in setter order (so
one entry per rejecting setter); the text of the returned error is the `%v`
rendering of the slice, its `Error()` texts between brackets, one space apart. -/
theorem run_aggregates_rejections {σ : Type} (Quote : String → String)
    (name value : String) (fns : List (setFn σ)) (s : σ)
    (h : ∃ r ∈ invocations name value fns s, r ≠ none) :
    (run Quote name value fns s).1 =
        some (.errorString (sprintV Quote (runLoop name value fns [] s).1)) ∧
      (runLoop name value fns [] s).1 ≠ [] ∧
      (runLoop name value fns [] s).1.map some =
        (invocations name value fns s).filter (fun r => r.isSome) ∧
      (runLoop name value fns [] s).1.length =
        (invocations name value fns s).countP (fun r => r.isSome) ∧
      (GoError.errorString (sprintV Quote (runLoop name value fns [] s).1)).Error Quote =
        "[" ++ " ".intercalate ((runLoop name value fns [] s).1.map (GoError.Error Quote)) ++ "]" := by
  have hne : (invocations name value fns s).reduceOption ≠ [] := by
    intro h0
    rw [reduceOption_eq_nil_iff] at h0
    obtain ⟨r, hr, hr0⟩ := h
    exact hr0 (h0 r hr)
  have hl : (runLoop name value fns [] s).1 = (invocations name value fns s).reduceOption := by
    rw [runLoop_eq]; simp
  refine ⟨?_, ?_, ?_, ?_, ?_⟩
  · rw [run_fst, hl, if_pos (List.length_pos.mpr hne)]
  · rw [hl]; exact hne
  · rw [hl]; exact reduceOption_map_some _
  · rw [hl, List.countP_eq_length_filter, ← reduceOption_map_some, List.length_map]
  · simp [GoError.Error, sprintV]

/-- A run of two setters on a counter state in which the second one rejects:
the first accepts and the second fails with a fixed error. -/
theorem run_aggregates_rejections_witness :
    (∃ r ∈ invocations "cpus" "x"
        [(fun _ _ (n : Nat) => (none, n + 1)),
          (fun _ v (n : Nat) => (some (GoError.errorString v), n))] 0, r ≠ none) ∧
      (run id "cpus" "x"
        [(fun _ _ (n : Nat) => (none, n + 1)),
          (fun _ v (n : Nat) => (some (GoError.errorString v), n))] 0).1 =
        some (.errorString "[x]") :=
  ⟨⟨some (.errorString "x"), by simp [invocations], by simp⟩,
    (run_aggregates_rejections id "cpus" "x"
      [(fun _ _ (n : Nat) => (none, n + 1)),
        (fun _ v (n : Nat) => (some (GoError.errorString v), n))] 0
      ⟨some (.errorString "x"), by simp [invocations], by simp⟩).1.trans (by decide)⟩

/-! ## Properties of `findSetting` -/

/-- The scan finds the entry at index `i` when that entry has the name and no
earlier entry has it. -/
theorem findSettingLoop_first {σ : Type} (name : String) (settings : List (Setting σ)) :
    ∀ (i : Nat) (hi : i < settings.length),
      (settings.get ⟨i, hi⟩).name = name →
      (∀ (j : Nat) (hj : j < settings.length), j < i → (settings.get ⟨j, hj⟩).name ≠ name) →
      findSettingLoop name settings = some (settings.get ⟨i, hi⟩) := by
  induction settings with
  | nil => intro i hi; simp at hi
  | cons s rest ih =>
    intro i hi hname hfirst
    cases i with
    | zero =>
      simp only [List.get_eq_getElem, List.getElem_cons_zero] at hname ⊢
      simp [findSettingLoop, hname]
    | succ k =>
      have h0 : s.name ≠ name := by
        have := hfirst 0 (by simp) (by omega)
        simpa using this
      have hk : k < rest.length := by simpa using hi
      have hrec := ih k hk (by simpa using hname) (by
        intro j hj hjk
        have := hfirst (j + 1) (by simpa using hj) (by omega)
        simpa using this)
      simp only [findSettingLoop, if_neg (Ne.symm h0)]
      simpa using hrec

/-- The scan finds nothing when no entry has the name. -/
theorem findSettingLoop_none {σ : Type} (name : String) (settings : List (Setting σ))
    (h : ∀ s ∈ settings, s.name ≠ name) : findSettingLoop name settings = none := by
  induction settings with
  | nil => rfl
  | cons s rest ih =>
    have h0 : s.name ≠ name := h s (by simp)
    simp only [findSettingLoop, if_neg (Ne.symm h0)]
    exact ih (fun t ht => h t (by simp [ht]))

/-- Claim C4: if the entry at index `i` of the catalog has the name `name` and no
entry before it has, `findSetting` returns that entry with a nil error; if no
entry has the name, it returns the zero `Setting` with the error whose text is
`Property name <name> not found`; the catalog is the same after the call. -/
theorem findSetting_first_match_or_not_found {σ : Type} (Quote : String → String)
    (settings : List (Setting σ)) (name : String) :
    (∀ (i : Nat) (hi : i < settings.length),
        (settings.get ⟨i, hi⟩).name = name →
        (∀ (j : Nat) (hj : j < settings.length), j < i → (settings.get ⟨j, hj⟩).name ≠ name) →
        (findSetting settings name).1 = (settings.get ⟨i, hi⟩, none)) ∧
      ((∀ s ∈ settings, s.name ≠ name) →
        (findSetting settings name).1.1 = Setting.zero ∧
        (findSetting settings name).1.1.name = "" ∧
        (findSetting settings name).1.1.setters = [] ∧
        ∃ err, (findSetting settings name).1.2 = some err ∧
          err.Error Quote = "Property name " ++ name ++ " not found") ∧
      (findSetting settings name).2 = settings := by
  refine ⟨?_, ?_, ?_⟩
  · intro i hi hname hfirst
    unfold findSetting
    rw [findSettingLoop_first name settings i hi hname hfirst]
  · intro h
    unfold findSetting
    rw [findSettingLoop_none name settings h]
    exact ⟨rfl, rfl, rfl, _, rfl, rfl⟩
  · unfold findSetting
    cases findSettingLoop name settings <;> rfl

/-- A catalog with the name `cpus` twice and the name `memory` once: the lookup
of `cpus` returns the entry at index 1, the first of the two, and the lookup of
`disk` fails with the text `Property name disk not found`. -/
theorem findSetting_first_match_or_not_found_witness :
    ((findSetting
        [(⟨"memory", []⟩ : Setting Nat), ⟨"cpus", [fun _ _ n => (none, n)]⟩, ⟨"cpus", []⟩]
        "cpus").1.1.setters.length = 1 ∧
      (findSetting
        [(⟨"memory", []⟩ : Setting Nat), ⟨"cpus", [fun _ _ n => (none, n)]⟩, ⟨"cpus", []⟩]
        "cpus").1.2 = none) ∧
      (∃ err, (findSetting
        [(⟨"memory", []⟩ : Setting Nat), ⟨"cpus", [fun _ _ n => (none, n)]⟩, ⟨"cpus", []⟩]
        "disk").1.2 = some err ∧ err.Error id = "Property name disk not found") := by
  have h := findSetting_first_match_or_not_found id
    [(⟨"memory", []⟩ : Setting Nat), ⟨"cpus", [fun _ _ n => (none, n)]⟩, ⟨"cpus", []⟩]
  refine ⟨?_, ?_⟩
  · have h1 := (h "cpus").1 1 (by decide) (by decide) (by
      intro j hj hj1
      have : j = 0 := by omega
      subst this
      simp)
    rw [h1]
    exact ⟨rfl, rfl⟩
  · have h2 := ((h "disk").2.1 (by
      intro s hs
      simp only [List.mem_cons, List.mem_singleton, List.not_mem_nil, or_false] at hs
      rcases hs with rfl | rfl | rfl <;> decide)).2.2.2
    obtain ⟨err, he, ht⟩ := h2
    exact ⟨err, he, by rw [ht]; decide⟩

/-! ## Properties of the set functions -/

/-- The result of `ParseBool` on the spellings of true. -/
theorem ParseBool_true (raw : String) (h : raw ∈ trueTokens) : ParseBool raw = (true, none) := by
  simp only [trueTokens, List.mem_cons, List.mem_singleton, List.not_mem_nil, or_false] at h
  unfold ParseBool
  rw [if_pos h]

/-- The result of `ParseBool` on the spellings of false. -/
theorem ParseBool_false (raw : String) (h : raw ∈ falseTokens) : ParseBool raw = (false, none) := by
  simp only [falseTokens, List.mem_cons, List.mem_singleton, List.not_mem_nil, or_false] at h
  unfold ParseBool
  have hn : ¬ (raw = "1" ∨ raw = "t" ∨ raw = "T" ∨ raw = "true" ∨ raw = "TRUE" ∨ raw = "True") := by
    rcases h with rfl | rfl | rfl | rfl | rfl | rfl <;> decide
  rw [if_neg hn, if_pos h]

/-- The result of `ParseBool` on every other string. -/
theorem ParseBool_other (raw : String) (ht : raw ∉ trueTokens) (hf : raw ∉ falseTokens) :
    ParseBool raw = (false, some (.numError "ParseBool" raw .ErrSyntax)) := by
  simp only [trueTokens, List.mem_cons, List.mem_singleton, List.not_mem_nil, or_false] at ht
  simp only [falseTokens, List.mem_cons, List.mem_singleton, List.not_mem_nil, or_false] at hf
  unfold ParseBool
  rw [if_neg ht, if_neg hf]

/-- The set functions on an allocated store: the assignment does not panic. -/
theorem assign_of_ne_nil (m : MinikubeConfig) (name : String) (v : Value) (hm : m ≠ .nil) :
    ∃ m1, m.assign name v = some m1 ∧ m1.get name = some v ∧
      (∀ k : String, k ≠ name → m1.get k = m.get k) ∧ m1 ≠ .nil := by
  cases m with
  | nil => exact absurd rfl hm
  | alloc entries =>
    refine ⟨_, rfl, by simp [MinikubeConfig.get], ?_, by simp⟩
    intro k hk
    simp [MinikubeConfig.get, hk]

/-- The result of `SetBool` when `ParseBool` accepts the value. -/
theorem SetBool_of_parsed (m : MinikubeConfig) (name raw : String) (b : Bool)
    (h : ParseBool raw = (b, none)) :
    SetBool m name raw =
      match m.assign name (.bool b) with
      | none => .panicked
      | some m1 => .returned none m1 := by
  unfold SetBool
  rw [h]

/-- The result of `SetBool` when `ParseBool` rejects the value. -/
theorem SetBool_of_parse_error (m : MinikubeConfig) (name raw : String) (b : Bool)
    (e : GoError) (h : ParseBool raw = (b, some e)) :
    SetBool m name raw = .returned (some e) m := by
  unfold SetBool
  rw [h]

/-- The result of `SetInt` when `Atoi` accepts the value. -/
theorem SetInt_of_parsed (IntSize : Nat) (m : MinikubeConfig) (name raw : String) (i : Int)
    (h : Atoi IntSize raw = (i, none)) :
    SetInt IntSize m name raw =
      match m.assign name (.int i) with
      | none => .panicked
      | some m1 => .returned none m1 := by
  unfold SetInt
  rw [h]

/-- The result of `SetInt` when `Atoi` rejects the value. -/
theorem SetInt_of_parse_error (IntSize : Nat) (m : MinikubeConfig) (name raw : String)
    (i : Int) (e : GoError) (h : Atoi IntSize raw = (i, some e)) :
    SetInt IntSize m name raw = .returned (some e) m := by
  unfold SetInt
  rw [h]

/-- Claim C6, as the code has it: on an allocated store `SetBool` succeeds
exactly when `raw` is one of the twelve spellings 1, t, T, true, TRUE, True, 0,
f, F, false, FALSE, False; for the first six the store then holds the boolean
true under `name`, for the last six the boolean false; every other `raw` is
rejected with a non-nil error, the store left as it was. -/
theorem SetBool_accepts_exactly_the_twelve_spellings (m : MinikubeConfig)
    (name raw : String) (hm : m ≠ .nil) :
    ((∃ m1, SetBool m name raw = .returned none m1) ↔
        raw ∈ trueTokens ∨ raw ∈ falseTokens) ∧
      (raw ∈ trueTokens →
        ∃ m1, SetBool m name raw = .returned none m1 ∧ m1.get name = some (.bool true)) ∧
      (raw ∈ falseTokens →
        ∃ m1, SetBool m name raw = .returned none m1 ∧ m1.get name = some (.bool false)) ∧
      (raw ∉ trueTokens → raw ∉ falseTokens →
        ∃ e, SetBool m name raw = .returned (some e) m) := by
  have hT : raw ∈ trueTokens →
      ∃ m1, SetBool m name raw = .returned none m1 ∧ m1.get name = some (.bool true) := by
    intro ht
    obtain ⟨m1, h1, h2, _, _⟩ := assign_of_ne_nil m name (.bool true) hm
    refine ⟨m1, ?_, h2⟩
    rw [SetBool_of_parsed m name raw true (ParseBool_true raw ht), h1]
  have hF : raw ∈ falseTokens →
      ∃ m1, SetBool m name raw = .returned none m1 ∧ m1.get name = some (.bool false) := by
    intro hf
    obtain ⟨m1, h1, h2, _, _⟩ := assign_of_ne_nil m name (.bool false) hm
    refine ⟨m1, ?_, h2⟩
    rw [SetBool_of_parsed m name raw false (ParseBool_false raw hf), h1]
  have hO : raw ∉ trueTokens → raw ∉ falseTokens →
      ∃ e, SetBool m name raw = .returned (some e) m := by
    intro ht hf
    exact ⟨_, SetBool_of_parse_error m name raw false _ (ParseBool_other raw ht hf)⟩
  refine ⟨⟨?_, ?_⟩, hT, hF, hO⟩
  · rintro ⟨m1, h1⟩
    by_contra hn
    push_neg at hn
    obtain ⟨e, he⟩ := hO hn.1 hn.2
    rw [he] at h1
    cases h1
  · rintro (ht | hf)
    · obtain ⟨m1, h1, _⟩ := hT ht
      exact ⟨m1, h1⟩
    · obtain ⟨m1, h1, _⟩ := hF hf
      exact ⟨m1, h1⟩

/-- The spelling `True` is accepted on an empty allocated store and stores the
boolean true. -/
theorem SetBool_accepts_exactly_the_twelve_spellings_witness :
    MinikubeConfig.alloc (fun _ => none) ≠ .nil ∧ "True" ∈ trueTokens ∧
      ∃ m1, SetBool (.alloc (fun _ => none)) "dashboard" "True" = .returned none m1 ∧
        m1.get "dashboard" = some (.bool true) :=
  ⟨by simp, by decide,
    (SetBool_accepts_exactly_the_twelve_spellings (.alloc (fun _ => none)) "dashboard" "True"
      (by simp)).2.1 (by decide)⟩

/-- Claim C6 fails as stated, twice over: `tRUE` equals the token `true` when
letter case is ignored, and on an allocated store `SetBool` rejects it with a
non-nil error; and on the nil store the accepted token `true` makes `SetBool`
panic instead of succeeding. -/
theorem SetBool_rejects_mixed_case :
    (isBoolTokenIgnoringCase "tRUE" = true ∧
      SetBool (.alloc (fun _ => none)) "dashboard" "tRUE" =
        .returned (some (.numError "ParseBool" "tRUE" .ErrSyntax)) (.alloc (fun _ => none)) ∧
      ¬ ∃ m1, SetBool (.alloc (fun _ => none)) "dashboard" "tRUE" = .returned none m1) ∧
    (isBoolTokenIgnoringCase "true" = true ∧
      SetBool .nil "dashboard" "true" = .panicked ∧
      ¬ ∃ m1, SetBool .nil "dashboard" "true" = .returned none m1) := by
  have h1 : SetBool (.alloc (fun _ => none)) "dashboard" "tRUE" =
      .returned (some (.numError "ParseBool" "tRUE" .ErrSyntax)) (.alloc (fun _ => none)) :=
    SetBool_of_parse_error _ _ _ false _ (by decide)
  have h2 : SetBool .nil "dashboard" "true" = .panicked := by
    rw [SetBool_of_parsed .nil "dashboard" "true" true (by decide)]
    rfl
  refine ⟨⟨by decide, h1, ?_⟩, by decide, h2, ?_⟩
  · rintro ⟨m1, h⟩
    rw [h1] at h
    cases h
  · rintro ⟨m1, h⟩
    rw [h2] at h
    cases h

/-- Claim C7: whenever `SetInt` or `SetBool` returns a non-nil error, the store
after the call is the store before the call, for every store, the nil store
included; and a value the parser rejects always gives such a return, never a
panic. -/
theorem SetInt_SetBool_error_leaves_store (IntSize : Nat) (m : MinikubeConfig)
    (name raw : String) :
    (∀ (e : GoError) (m1 : MinikubeConfig),
        SetInt IntSize m name raw = .returned (some e) m1 → m1 = m) ∧
      (∀ (e : GoError) (m1 : MinikubeConfig),
        SetBool m name raw = .returned (some e) m1 → m1 = m) ∧
      (∀ e : GoError, (Atoi IntSize raw).2 = some e →
        SetInt IntSize m name raw = .returned (some e) m) ∧
      (∀ e : GoError, (ParseBool raw).2 = some e →
        SetBool m name raw = .returned (some e) m) := by
  refine ⟨?_, ?_, ?_, ?_⟩
  · intro e m1 h
    rcases hA : Atoi IntSize raw with ⟨i, err⟩
    cases err with
    | none =>
      rw [SetInt_of_parsed IntSize m name raw i hA] at h
      cases hm : m.assign name (.int i) <;> rw [hm] at h <;> cases h
    | some e0 =>
      rw [SetInt_of_parse_error IntSize m name raw i e0 hA] at h
      cases h
      rfl
  · intro e m1 h
    rcases hP : ParseBool raw with ⟨b, err⟩
    cases err with
    | none =>
      rw [SetBool_of_parsed m name raw b hP] at h
      cases hm : m.assign name (.bool b) <;> rw [hm] at h <;> cases h
    | some e0 =>
      rw [SetBool_of_parse_error m name raw b e0 hP] at h
      cases h
      rfl
  · intro e h
    rcases hA : Atoi IntSize raw with ⟨i, err⟩
    rw [hA] at h
    cases h
    exact SetInt_of_parse_error IntSize m name raw i e hA
  · intro e h
    rcases hP : ParseBool raw with ⟨b, err⟩
    rw [hP] at h
    cases h
    exact SetBool_of_parse_error m name raw b e hP

/-- The inputs `abc` and `maybe` are rejected on a store that holds one key, and
the store is the same afterwards. -/
theorem SetInt_SetBool_error_leaves_store_witness :
    (∃ (e : GoError) (m1 : MinikubeConfig),
      SetInt 64 (.alloc (fun k => if k = "cpus" then some (.int 2) else none)) "cpus" "abc" =
        .returned (some e) m1 ∧
      m1 = .alloc (fun k => if k = "cpus" then some (.int 2) else none)) ∧
    (∃ (e : GoError) (m1 : MinikubeConfig),
      SetBool (.alloc (fun k => if k = "cpus" then some (.int 2) else none)) "cpus" "maybe" =
        .returned (some e) m1 ∧
      m1 = .alloc (fun k => if k = "cpus" then some (.int 2) else none)) :=
  ⟨⟨_, _, SetInt_of_parse_error 64 _ "cpus" "abc" 0 (.numError "ParseInt" "abc" .ErrSyntax)
        (by decide),
      (SetInt_SetBool_error_leaves_store 64
        (.alloc (fun k => if k = "cpus" then some (.int 2) else none)) "cpus" "abc").1 _ _
        (SetInt_of_parse_error 64 _ "cpus" "abc" 0 (.numError "ParseInt" "abc" .ErrSyntax)
          (by decide))⟩,
    ⟨_, _, SetBool_of_parse_error _ "cpus" "maybe" false
        (.numError "ParseBool" "maybe" .ErrSyntax) (by decide),
      (SetInt_SetBool_error_leaves_store 64
        (.alloc (fun k => if k = "cpus" then some (.int 2) else none)) "cpus" "maybe").2.1 _ _
        (SetBool_of_parse_error _ "cpus" "maybe" false
          (.numError "ParseBool" "maybe" .ErrSyntax) (by decide))⟩⟩

/-- Claim C8, as the code has it: on an allocated store `SetString` returns nil
for every name and value, the empty string included; afterwards the store holds
the string `val` itself under `name`, every other key maps to what it mapped to
before, and the store is still allocated. -/
theorem SetString_stores_verbatim (m : MinikubeConfig) (name val : String)
    (hm : m ≠ .nil) :
    (∃ m1, SetString m name val = .returned none m1 ∧
        m1.get name = some (.str val) ∧
        (∀ k : String, k ≠ name → m1.get k = m.get k) ∧ m1 ≠ .nil) ∧
      (∃ m1, SetString m name "" = .returned none m1 ∧ m1.get name = some (.str "")) := by
  constructor
  · obtain ⟨m1, h1, h2, h3, h4⟩ := assign_of_ne_nil m name (.str val) hm
    refine ⟨m1, ?_, h2, h3, h4⟩
    unfold SetString
    rw [h1]
  · obtain ⟨m1, h1, h2, _, _⟩ := assign_of_ne_nil m name (.str "") hm
    refine ⟨m1, ?_, h2⟩
    unfold SetString
    rw [h1]

/-- On a store that holds the key `memory`, `SetString` puts the string `2`
under `cpus` and leaves `memory` as it was. -/
theorem SetString_stores_verbatim_witness :
    MinikubeConfig.alloc (fun k => if k = "memory" then some (.int 2048) else none) ≠ .nil ∧
      ∃ m1, SetString (.alloc (fun k => if k = "memory" then some (.int 2048) else none))
          "cpus" "2" = .returned none m1 ∧
        m1.get "cpus" = some (.str "2") ∧ m1.get "memory" = some (.int 2048) := by
  obtain ⟨m1, h1, h2, h3, _⟩ := (SetString_stores_verbatim
    (.alloc (fun k => if k = "memory" then some (.int 2048) else none)) "cpus" "2"
    (by simp)).1
  exact ⟨by simp, m1, h1, h2, by rw [h3 "memory" (by decide)]; rfl⟩

/-- Claim C8 fails as stated: on the nil store `SetString` does not return nil;
the assignment `m[name] = val` panics. -/
theorem SetString_panics_on_nil_store :
    SetString .nil "cpus" "2" = .panicked ∧
      ¬ ∃ m1, SetString .nil "cpus" "2" = .returned none m1 := by
  have h : SetString .nil "cpus" "2" = .panicked := rfl
  refine ⟨h, ?_⟩
  rintro ⟨m1, h1⟩
  rw [h] at h1
  cases h1

/-! ## `SetInt` against the design document's integers -/

/-- A decimal digit is a character with code 48 to 57. -/
theorem isDigit_iff (c : Char) : c.isDigit = true ↔ 48 ≤ c.toNat ∧ c.toNat ≤ 57 := by
  simp [Char.isDigit, Char.toNat, UInt32.le_def, BitVec.le_def, UInt32.toNat]

/-- The digit value of a decimal digit. -/
theorem digitVal_of_isDigit (c : Char) (h : c.isDigit = true) :
    digitVal c = some (c.toNat - 48) ∧ c.toNat - 48 < 10 := by
  rw [isDigit_iff] at h
  unfold digitVal
  rw [if_pos h]
  exact ⟨rfl, by omega⟩

/-- A character that is no decimal digit has no digit value below ten. -/
theorem digitVal_of_not_isDigit (c : Char) (h : ¬ c.isDigit = true) :
    digitVal c = none ∨ ∃ v, digitVal c = some v ∧ v ≥ 10 := by
  rw [isDigit_iff] at h
  unfold digitVal
  rw [if_neg h]
  split_ifs
  · exact Or.inr ⟨_, rfl, by omega⟩
  · exact Or.inr ⟨_, rfl, by omega⟩
  · exact Or.inl rfl

/-- Reading more digits never lowers the number. -/
theorem le_decimalFrom (digits : List Char) : ∀ n : Nat, n ≤ decimalFrom n digits := by
  induction digits with
  | nil => intro n; simp [decimalFrom]
  | cons c ds ih =>
    intro n
    have h := ih (10 * n + (c.toNat - 48))
    simp only [decimalFrom, List.foldl_cons] at h ⊢
    omega

/-- The digit loop of `ParseUint` returns the number the digits write when they
are all decimal digits and the number fits, and an error otherwise: a syntax
error with the value 0 or a range error with the largest 64-bit value. -/
theorem parseUintLoop_spec (maxVal : Nat) (hmax : maxVal < 2 ^ 64) (digits : List Char) :
    ∀ n : Nat, n ≤ maxVal →
      (digits.all Char.isDigit = true ∧ decimalFrom n digits ≤ maxVal →
        parseUintLoop maxVal digits n = (decimalFrom n digits, none)) ∧
      (¬ (digits.all Char.isDigit = true ∧ decimalFrom n digits ≤ maxVal) →
        parseUintLoop maxVal digits n = (0, some .ErrSyntax) ∨
        parseUintLoop maxVal digits n = (2 ^ 64 - 1, some .ErrRange)) := by
  induction digits with
  | nil =>
    intro n hn
    simp [parseUintLoop, decimalFrom, hn]
  | cons c ds ih =>
    intro n hn
    have hstep : decimalFrom n (c :: ds) = decimalFrom (10 * n + (c.toNat - 48)) ds := by
      simp [decimalFrom]
    by_cases hc : c.isDigit = true
    · obtain ⟨hv, hlt⟩ := digitVal_of_isDigit c hc
      have hge := le_decimalFrom ds (10 * n + (c.toNat - 48))
      unfold parseUintLoop
      simp only [hv, List.all_cons, hc, Bool.true_and, hstep]
      rw [if_neg (by omega)]
      by_cases hcut : n ≥ (2 ^ 64 - 1) / 10 + 1
      · rw [if_pos hcut]
        refine ⟨?_, fun _ => Or.inr rfl⟩
        rintro ⟨_, hle⟩
        exfalso
        omega
      · rw [if_neg hcut]
        have h10 : n * 10 % 2 ^ 64 = n * 10 := Nat.mod_eq_of_lt (by omega)
        simp only [h10]
        by_cases hov : n * 10 + (c.toNat - 48) < 2 ^ 64
        · have h1 : (n * 10 + (c.toNat - 48)) % 2 ^ 64 = n * 10 + (c.toNat - 48) :=
            Nat.mod_eq_of_lt hov
          simp only [h1]
          by_cases hfit : n * 10 + (c.toNat - 48) ≤ maxVal
          · rw [if_neg (by omega)]
            have := ih (n * 10 + (c.toNat - 48)) hfit
            rw [show 10 * n + (c.toNat - 48) = n * 10 + (c.toNat - 48) by omega]
            exact this
          · rw [if_pos (by omega)]
            refine ⟨?_, fun _ => Or.inr rfl⟩
            rintro ⟨_, hle⟩
            exfalso
            omega
        · have h1 : (n * 10 + (c.toNat - 48)) % 2 ^ 64 < n * 10 := by omega
          rw [if_pos (Or.inl h1)]
          refine ⟨?_, fun _ => Or.inr rfl⟩
          rintro ⟨_, hle⟩
          exfalso
          omega
    · have hall : ¬ ((c :: ds).all Char.isDigit = true ∧ decimalFrom n (c :: ds) ≤ maxVal) := by
        simp [hc]
      refine ⟨fun h => absurd h hall, fun _ => Or.inl ?_⟩
      unfold parseUintLoop
      rcases digitVal_of_not_isDigit c hc with h0 | ⟨v, h0, hv⟩
      · simp only [h0]
      · simp only [h0]
        rw [if_pos hv]

/-- The largest value `ParseUint` lets through for the two widths of `int`. -/
theorem maxVal_eq (bitSize : Nat) (hb : bitSize = 32 ∨ bitSize = 64) :
    ((2 ^ bitSize) % 2 ^ 64 + 2 ^ 64 - 1) % 2 ^ 64 = 2 ^ bitSize - 1 := by
  rcases hb with rfl | rfl <;> norm_num

/-- The function `ParseUint` returns the number the digits write when there is
at least one, all are decimal digits and the number is below `2 ^ bitSize`, and
an error otherwise. -/
theorem ParseUint_spec (bitSize : Nat) (hb : bitSize = 32 ∨ bitSize = 64) (digits : List Char) :
    (digits.isEmpty = false ∧ digits.all Char.isDigit = true ∧
        decimalFrom 0 digits ≤ 2 ^ bitSize - 1 →
      ParseUint digits bitSize = (decimalFrom 0 digits, none)) ∧
    (¬ (digits.isEmpty = false ∧ digits.all Char.isDigit = true ∧
        decimalFrom 0 digits ≤ 2 ^ bitSize - 1) →
      ParseUint digits bitSize = (0, some .ErrSyntax) ∨
      ParseUint digits bitSize = (2 ^ 64 - 1, some .ErrRange)) := by
  have hmax : 2 ^ bitSize - 1 < 2 ^ 64 := by rcases hb with rfl | rfl <;> norm_num
  unfold ParseUint
  rw [maxVal_eq bitSize hb]
  cases digits with
  | nil => simp
  | cons c ds =>
    have hlen : ¬ (c :: ds).length < 1 := by simp
    rw [if_neg hlen]
    have h := parseUintLoop_spec (2 ^ bitSize - 1) hmax (c :: ds) 0 (Nat.zero_le _)
    simp only [List.isEmpty_cons, true_and]
    exact h

/-- The conversion after the sign returns the signed number when there is at
least one digit, all are decimal digits and the signed number is in the range
of the width, and an error otherwise. -/
theorem convertSigned_spec (bitSize : Nat) (hb : bitSize = 32 ∨ bitSize = 64) (neg : Bool)
    (digits : List Char) :
    (digits.isEmpty = false ∧ digits.all Char.isDigit = true ∧
        inIntRange bitSize (if neg = true then - (decimalFrom 0 digits : Int)
          else (decimalFrom 0 digits : Int)) →
      convertSigned neg digits bitSize =
        ((if neg = true then - (decimalFrom 0 digits : Int) else (decimalFrom 0 digits : Int)),
          none)) ∧
    (¬ (digits.isEmpty = false ∧ digits.all Char.isDigit = true ∧
        inIntRange bitSize (if neg = true then - (decimalFrom 0 digits : Int)
          else (decimalFrom 0 digits : Int))) →
      (convertSigned neg digits bitSize).2 ≠ none) := by
  obtain ⟨hok, hbad⟩ := ParseUint_spec bitSize hb digits
  have hC2 : 2 ^ bitSize = 2 * 2 ^ (bitSize - 1) := by rcases hb with rfl | rfl <;> norm_num
  have hC63 : 2 ^ (bitSize - 1) ≤ 2 ^ 63 := by rcases hb with rfl | rfl <;> norm_num
  have hC0 : 0 < 2 ^ (bitSize - 1) := by positivity
  have hcast : ((2 : Int) ^ (bitSize - 1)) = ((2 ^ (bitSize - 1) : Nat) : Int) := by
    push_cast; rfl
  unfold inIntRange convertSigned
  rw [hcast]
  generalize 2 ^ bitSize = D at hok hbad hC2
  generalize 2 ^ (bitSize - 1) = C at hC2 hC63 hC0 ⊢
  generalize decimalFrom 0 digits = v at hok hbad ⊢
  by_cases hv : digits.isEmpty = false ∧ digits.all Char.isDigit = true ∧ v ≤ D - 1
  · rw [hok hv]
    obtain ⟨he, hd, hfit⟩ := hv
    simp only [he, hd, true_and]
    cases neg
    · simp only [Bool.false_eq_true, if_false, true_and, false_and]
      constructor
      · intro h
        rw [if_neg (by omega)]
      · intro h
        rw [if_pos (by omega)]
        simp
    · simp only [if_true, true_and, Bool.true_eq_false, false_and, if_false]
      constructor
      · intro h
        rw [if_neg (by omega)]
      · intro h
        rw [if_pos (by omega)]
        simp
  · have hnot : ¬ (digits.isEmpty = false ∧ digits.all Char.isDigit = true ∧
        (-(C : Int) ≤ (if neg = true then - (v : Int) else (v : Int)) ∧
          (if neg = true then - (v : Int) else (v : Int)) ≤ (C : Int) - 1)) := by
      rintro ⟨he, hd, h1, h2⟩
      apply hv
      refine ⟨he, hd, ?_⟩
      cases neg
      · simp only [Bool.false_eq_true, if_false] at h1 h2
        omega
      · simp only [if_true] at h1 h2
        omega
    refine ⟨fun h => absurd h hnot, fun _ => ?_⟩
    rcases hbad hv with h | h
    · rw [h]
      simp
    · rw [h]
      cases neg
      · simp only [Bool.false_eq_true, if_false, true_and, false_and]
        rw [if_pos (by omega)]
        simp
      · simp only [if_true, true_and, Bool.true_eq_false, false_and, if_false]
        rw [if_pos (by omega)]
        simp

/-- The function `ParseInt` at base 10 returns the integer a base-10 literal
denotes when that integer is in the range of the width, and an error for every
other input. -/
theorem ParseInt_spec (bitSize : Nat) (hb : bitSize = 32 ∨ bitSize = 64) (s : List Char) :
    (isBase10Literal s = true ∧ inIntRange bitSize (base10Value s) →
      ParseInt s bitSize = (base10Value s, none)) ∧
    (¬ (isBase10Literal s = true ∧ inIntRange bitSize (base10Value s)) →
      (ParseInt s bitSize).2 ≠ none) := by
  cases s with
  | nil => simp [isBase10Literal, splitSign, ParseInt]
  | cons c rest =>
    by_cases hp : c = '+'
    · have h := convertSigned_spec bitSize hb false rest
      simp only [ParseInt, isBase10Literal, base10Value, splitSign, if_pos hp,
        Bool.and_eq_true, Bool.not_eq_true', and_assoc]
      simpa using h
    · by_cases hm : c = '-'
      · have h := convertSigned_spec bitSize hb true rest
        simp only [ParseInt, isBase10Literal, base10Value, splitSign, if_neg hp, if_pos hm,
          Bool.and_eq_true, Bool.not_eq_true', and_assoc]
        simpa using h
      · have h := convertSigned_spec bitSize hb false (c :: rest)
        simp only [ParseInt, isBase10Literal, base10Value, splitSign, if_neg hp, if_neg hm,
          Bool.and_eq_true, Bool.not_eq_true', and_assoc]
        simpa using h

/-- Claim C5, as the code has it: on an allocated store `SetInt` returns nil
exactly when `raw` is a base-10 integer, an optional sign followed by one or
more decimal digits, within the range of `int`; the store then holds that
integer under `name` and every other key is unchanged; for every other `raw`
the result is a non-nil error, the store left as it was. -/
theorem SetInt_accepts_exactly_base10_integers (IntSize : Nat)
    (hI : IntSize = 32 ∨ IntSize = 64) (m : MinikubeConfig) (name raw : String)
    (hm : m ≠ .nil) :
    ((∃ m1, SetInt IntSize m name raw = .returned none m1) ↔
        isBase10Literal raw.toList = true ∧ inIntRange IntSize (base10Value raw.toList)) ∧
      (isBase10Literal raw.toList = true ∧ inIntRange IntSize (base10Value raw.toList) →
        ∃ m1, SetInt IntSize m name raw = .returned none m1 ∧
          m1.get name = some (.int (base10Value raw.toList)) ∧
          ∀ k : String, k ≠ name → m1.get k = m.get k) ∧
      (¬ (isBase10Literal raw.toList = true ∧ inIntRange IntSize (base10Value raw.toList)) →
        ∃ e, SetInt IntSize m name raw = .returned (some e) m) := by
  obtain ⟨hok, hbad⟩ := ParseInt_spec IntSize hI raw.toList
  have hY : isBase10Literal raw.toList = true ∧ inIntRange IntSize (base10Value raw.toList) →
      ∃ m1, SetInt IntSize m name raw = .returned none m1 ∧
        m1.get name = some (.int (base10Value raw.toList)) ∧
        ∀ k : String, k ≠ name → m1.get k = m.get k := by
    intro h
    have hA : Atoi IntSize raw = (base10Value raw.toList, none) := by
      unfold Atoi
      rw [hok h]
    obtain ⟨m1, h1, h2, h3, _⟩ := assign_of_ne_nil m name (.int (base10Value raw.toList)) hm
    refine ⟨m1, ?_, h2, h3⟩
    rw [SetInt_of_parsed IntSize m name raw _ hA, h1]
  have hN : ¬ (isBase10Literal raw.toList = true ∧
      inIntRange IntSize (base10Value raw.toList)) →
      ∃ e, SetInt IntSize m name raw = .returned (some e) m := by
    intro h
    have hne := hbad h
    rcases hP : ParseInt raw.toList IntSize with ⟨i, err⟩
    rw [hP] at hne
    cases err with
    | none => exact absurd rfl hne
    | some k =>
      refine ⟨.numError "ParseInt" raw k, SetInt_of_parse_error IntSize m name raw i _ ?_⟩
      unfold Atoi
      rw [hP]
  refine ⟨⟨?_, fun h => ?_⟩, hY, hN⟩
  · rintro ⟨m1, h1⟩
    by_contra hn
    obtain ⟨e, he⟩ := hN hn
    rw [he] at h1
    cases h1
  · obtain ⟨m1, h1, _⟩ := hY h
    exact ⟨m1, h1⟩

/-- On a 64-bit platform the input `-42` is a base-10 integer in range; on a
store that holds the key `memory`, `SetInt` stores the integer -42 under `cpus`
and leaves `memory` as it was. -/
theorem SetInt_accepts_exactly_base10_integers_witness :
    MinikubeConfig.alloc (fun k => if k = "memory" then some (.int 2048) else none) ≠ .nil ∧
      (isBase10Literal "-42".toList = true ∧ inIntRange 64 (base10Value "-42".toList)) ∧
      ∃ m1, SetInt 64 (.alloc (fun k => if k = "memory" then some (.int 2048) else none))
          "cpus" "-42" = .returned none m1 ∧
        m1.get "cpus" = some (.int (-42)) ∧ m1.get "memory" = some (.int 2048) := by
  have hlit : isBase10Literal "-42".toList = true ∧ inIntRange 64 (base10Value "-42".toList) := by
    decide
  obtain ⟨m1, h1, h2, h3⟩ := (SetInt_accepts_exactly_base10_integers 64 (Or.inr rfl)
    (.alloc (fun k => if k = "memory" then some (.int 2048) else none)) "cpus" "-42"
    (by simp)).2.1 hlit
  refine ⟨by simp, hlit, m1, h1, ?_, ?_⟩
  · rw [h2]
    decide
  · rw [h3 "memory" (by decide)]
    rfl

/-- Claim C5 fails as stated: `2` is a base-10 integer within the range of
`int`, and on the nil store `SetInt` does not return nil; the assignment
`m[name] = i` panics. -/
theorem SetInt_panics_on_nil_store :
    (isBase10Literal "2".toList = true ∧ inIntRange 64 (base10Value "2".toList)) ∧
      SetInt 64 .nil "cpus" "2" = .panicked ∧
      ¬ ∃ m1, SetInt 64 .nil "cpus" "2" = .returned none m1 := by
  have h : SetInt 64 .nil "cpus" "2" = .panicked := by
    rw [SetInt_of_parsed 64 .nil "cpus" "2" 2 (by decide)]
    rfl
  refine ⟨by decide, h, ?_⟩
  rintro ⟨m1, h1⟩
  rw [h] at h1
  cases h1

/-! ## The addon toggle on a value that is no boolean -/

/-- The run of `EnableOrDisableAddon` on a value `ParseBool` rejects: the parse
error is kept while the client is made and the guard runs, and is returned
after the catalog lookup if the guard returns. -/
theorem EnableOrDisableAddon_of_parse_error (w : World) (name val : String) (b : Bool)
    (e : GoError) (h : ParseBool val = (b, some e)) :
    EnableOrDisableAddon w name val =
      match w.guard with
      | some status => (.exited status, [.NewClient, .EnsureMinikubeRunningOrExit])
      | none => (.returned (some e),
          [.NewClient, .EnsureMinikubeRunningOrExit, .AddonsLookup name, .Close]) := by
  unfold EnableOrDisableAddon
  rw [h]
  cases w.guard <;> rfl

/-- Claim C9, as the code behaves: on a value that does not parse as a boolean,
`EnableOrDisableAddon` makes no remote call (no helper call, no SSH session, no
transfer, no delete); it returns the non-nil parse error when the cluster guard
returns; when the guard ends the process it returns nothing, the call ends with
the exit of the process. -/
theorem EnableOrDisableAddon_unparseable_no_remote_call (w : World) (name val : String)
    (h : (ParseBool val).2 ≠ none) :
    (∀ ev ∈ (EnableOrDisableAddon w name val).2, ev.isRemote = false) ∧
      (w.guard = none →
        (EnableOrDisableAddon w name val).1 = .returned (ParseBool val).2) ∧
      (∀ status : Nat, w.guard = some status →
        (EnableOrDisableAddon w name val).1 = .exited status) := by
  rcases hP : ParseBool val with ⟨b, err⟩
  rw [hP] at h
  cases err with
  | none => exact absurd rfl h
  | some e =>
    rw [EnableOrDisableAddon_of_parse_error w name val b e hP]
    cases hg : w.guard with
    | none => simp [Event.isRemote]
    | some status => simp [Event.isRemote]

/-- The toggle of addon `dashboard` with the value `maybe` on a stopped cluster:
`maybe` is no boolean, and the call ends with the exit of the process, status
0, instead of returning an error. -/
theorem EnableOrDisableAddon_unparseable_no_remote_call_witness :
    (ParseBool "maybe").2 ≠ none ∧
      (EnableOrDisableAddon stoppedCluster "dashboard" "maybe").1 = .exited 0 ∧
      ∀ err : Option GoError,
        (EnableOrDisableAddon stoppedCluster "dashboard" "maybe").1 ≠ .returned err :=
  ⟨by decide,
    (EnableOrDisableAddon_unparseable_no_remote_call stoppedCluster "dashboard" "maybe"
      (by decide)).2.2 0 rfl,
    fun err => by
      rw [(EnableOrDisableAddon_unparseable_no_remote_call stoppedCluster "dashboard" "maybe"
        (by decide)).2.2 0 rfl]
      simp⟩

/-- Claim C10, as the code behaves: on a value that does not parse as a boolean,
`EnableOrDisableAddon` does not return at once. Its first two calls are always
`libmachine.NewClient` and the cluster guard; when the guard returns, the
catalog lookup follows, and only then the parse error is returned and the
client closed. -/
theorem EnableOrDisableAddon_unparseable_runs_guard_first (w : World) (name val : String)
    (h : (ParseBool val).2 ≠ none) :
    (EnableOrDisableAddon w name val).2.take 2 = [.NewClient, .EnsureMinikubeRunningOrExit] ∧
      (w.guard = none →
        EnableOrDisableAddon w name val =
          (.returned (ParseBool val).2,
            [.NewClient, .EnsureMinikubeRunningOrExit, .AddonsLookup name, .Close])) := by
  rcases hP : ParseBool val with ⟨b, err⟩
  rw [hP] at h
  cases err with
  | none => exact absurd rfl h
  | some e =>
    rw [EnableOrDisableAddon_of_parse_error w name val b e hP]
    cases hg : w.guard with
    | none => simp
    | some status => simp

/-- The toggle of addon `dashboard` with the value `maybe` on a running cluster:
the client is made, the guard runs and the catalog is read before the parse
error comes back. -/
theorem EnableOrDisableAddon_unparseable_runs_guard_first_witness :
    (ParseBool "maybe").2 ≠ none ∧
      EnableOrDisableAddon runningCluster "dashboard" "maybe" =
        (.returned (some (.numError "ParseBool" "maybe" .ErrSyntax)),
          [.NewClient, .EnsureMinikubeRunningOrExit, .AddonsLookup "dashboard", .Close]) :=
  ⟨by decide,
    (EnableOrDisableAddon_unparseable_runs_guard_first runningCluster "dashboard" "maybe"
      (by decide)).2 rfl⟩

/-! ## The two helper functions -/

/-- The helper `transferAddonViaDriver` when no session opens. -/
theorem transferAddonViaDriver_of_error (w : World) (addon : Option Addon) (d : Driver)
    (e : GoError) (h : w.NewSSHClient d = .error e) :
    transferAddonViaDriver w addon d = (some e, [.NewSSHClient d]) := by
  unfold transferAddonViaDriver
  rw [h]

/-- The helper `transferAddonViaDriver` when the session opens. -/
theorem transferAddonViaDriver_of_ok (w : World) (addon : Option Addon) (d : Driver)
    (client : SSHClient) (h : w.NewSSHClient d = .ok client) :
    transferAddonViaDriver w addon d =
      (w.TransferAddon addon client, [.NewSSHClient d, .TransferAddon addon client]) := by
  unfold transferAddonViaDriver
  rw [h]
  rcases h2 : w.TransferAddon addon client with _ | e <;> simp [h2]

/-- The helper `deleteAddonViaDriver` when no session opens. -/
theorem deleteAddonViaDriver_of_error (w : World) (addon : Option Addon) (d : Driver)
    (e : GoError) (h : w.NewSSHClient d = .error e) :
    deleteAddonViaDriver w addon d = (some e, [.NewSSHClient d]) := by
  unfold deleteAddonViaDriver
  rw [h]

/-- The helper `deleteAddonViaDriver` when the session opens. -/
theorem deleteAddonViaDriver_of_ok (w : World) (addon : Option Addon) (d : Driver)
    (client : SSHClient) (h : w.NewSSHClient d = .ok client) :
    deleteAddonViaDriver w addon d =
      (w.DeleteAddon addon client, [.NewSSHClient d, .DeleteAddon addon client]) := by
  unfold deleteAddonViaDriver
  rw [h]
  rcases h2 : w.DeleteAddon addon client with _ | e <;> simp [h2]

/-- The calls of `transferAddonViaDriver`: the opening of a session, followed
by at most one call of `sshutil.TransferAddon`. -/
theorem transferAddonViaDriver_calls (w : World) (addon : Option Addon) (d : Driver) :
    (transferAddonViaDriver w addon d).2 = [.NewSSHClient d] ∨
      ∃ client, (transferAddonViaDriver w addon d).2 =
        [.NewSSHClient d, .TransferAddon addon client] := by
  cases h : w.NewSSHClient d with
  | error e => rw [transferAddonViaDriver_of_error w addon d e h]; exact Or.inl rfl
  | ok client => rw [transferAddonViaDriver_of_ok w addon d client h]; exact Or.inr ⟨client, rfl⟩

/-- The calls of `deleteAddonViaDriver`: the opening of a session, followed by
at most one call of `sshutil.DeleteAddon`. -/
theorem deleteAddonViaDriver_calls (w : World) (addon : Option Addon) (d : Driver) :
    (deleteAddonViaDriver w addon d).2 = [.NewSSHClient d] ∨
      ∃ client, (deleteAddonViaDriver w addon d).2 =
        [.NewSSHClient d, .DeleteAddon addon client] := by
  cases h : w.NewSSHClient d with
  | error e => rw [deleteAddonViaDriver_of_error w addon d e h]; exact Or.inl rfl
  | ok client => rw [deleteAddonViaDriver_of_ok w addon d client h]; exact Or.inr ⟨client, rfl⟩

/-- Claim C18: if `sshutil.NewSSHClient` fails with error `e`, each of the two
helpers returns `e` itself and its only call is the failed opening, so neither
`sshutil.TransferAddon` nor `sshutil.DeleteAddon` is called; if the session
opens, `transferAddonViaDriver` calls `sshutil.TransferAddon` once, with the
addon and the session, and returns the result of that call, and
`deleteAddonViaDriver` does the same with `sshutil.DeleteAddon`. -/
theorem helpers_return_session_error_or_operation_result (w : World)
    (addon : Option Addon) (d : Driver) :
    (∀ e : GoError, w.NewSSHClient d = .error e →
        transferAddonViaDriver w addon d = (some e, [.NewSSHClient d]) ∧
        deleteAddonViaDriver w addon d = (some e, [.NewSSHClient d])) ∧
      (∀ client : SSHClient, w.NewSSHClient d = .ok client →
        transferAddonViaDriver w addon d =
          (w.TransferAddon addon client, [.NewSSHClient d, .TransferAddon addon client]) ∧
        deleteAddonViaDriver w addon d =
          (w.DeleteAddon addon client, [.NewSSHClient d, .DeleteAddon addon client]) ∧
        (w.TransferAddon addon client = none → (transferAddonViaDriver w addon d).1 = none) ∧
        (w.DeleteAddon addon client = none → (deleteAddonViaDriver w addon d).1 = none)) := by
  refine ⟨fun e h => ⟨transferAddonViaDriver_of_error w addon d e h,
    deleteAddonViaDriver_of_error w addon d e h⟩, fun client h => ⟨?_, ?_, ?_, ?_⟩⟩
  · exact transferAddonViaDriver_of_ok w addon d client h
  · exact deleteAddonViaDriver_of_ok w addon d client h
  · intro h0
    rw [transferAddonViaDriver_of_ok w addon d client h, h0]
  · intro h0
    rw [deleteAddonViaDriver_of_ok w addon d client h, h0]

/-- Where no session opens, both helpers return the dialing error and stop;
where the session opens and the copy fails, the transfer helper returns the
error of the copy after one call of `sshutil.TransferAddon`. -/
theorem helpers_return_session_error_or_operation_result_witness :
    (transferAddonViaDriver noSession none ⟨"minikube"⟩ =
        (some (.errorString "Error dialing tcp via ssh client"), [.NewSSHClient ⟨"minikube"⟩]) ∧
      deleteAddonViaDriver noSession none ⟨"minikube"⟩ =
        (some (.errorString "Error dialing tcp via ssh client"), [.NewSSHClient ⟨"minikube"⟩])) ∧
    transferAddonViaDriver failingRemote none ⟨"minikube"⟩ =
      (some (.errorString "Error running scp command"),
        [.NewSSHClient ⟨"minikube"⟩, .TransferAddon none ⟨⟨"minikube"⟩⟩]) :=
  ⟨(helpers_return_session_error_or_operation_result noSession none ⟨"minikube"⟩).1
      (.errorString "Error dialing tcp via ssh client") rfl,
    ((helpers_return_session_error_or_operation_result failingRemote none ⟨"minikube"⟩).2
      ⟨⟨"minikube"⟩⟩ rfl).1⟩

/-! ## The addon toggle on a boolean value -/

/-- The run of `EnableOrDisableAddon` when the guard ends the process: the
client is made, the guard is called, and nothing follows. -/
theorem EnableOrDisableAddon_of_guard_exit (w : World) (name val : String) (status : Nat)
    (hg : w.guard = some status) :
    EnableOrDisableAddon w name val =
      (.exited status, [.NewClient, .EnsureMinikubeRunningOrExit]) := by
  unfold EnableOrDisableAddon
  rcases ParseBool val with ⟨b, err⟩
  simp only [hg]

/-- The run of `EnableOrDisableAddon` on a boolean value when the guard returns
and the host does not load: the read of `host.Driver` panics, and the deferred
`Close` runs. -/
theorem EnableOrDisableAddon_of_load_error (w : World) (name val : String) (b : Bool)
    (e : GoError) (hP : ParseBool val = (b, none)) (hg : w.guard = none)
    (hl : w.load = .error e) :
    EnableOrDisableAddon w name val =
      (.panicked, [.NewClient, .EnsureMinikubeRunningOrExit, .AddonsLookup name,
        .CheckIfApiExistsAndLoad, .Close]) := by
  unfold EnableOrDisableAddon
  rw [hP]
  simp only [hg, hl]
  rfl

/-- The run of `EnableOrDisableAddon` on a boolean value when the guard returns
and the host loads: one helper is called, chosen by the value, and its error
comes back wrapped. -/
theorem EnableOrDisableAddon_of_dispatch (w : World) (name val : String) (b : Bool)
    (host : Host) (hP : ParseBool val = (b, none)) (hg : w.guard = none)
    (hl : w.load = .ok host) :
    EnableOrDisableAddon w name val =
      if b = true then
        (.returned (Wrapf (transferAddonViaDriver w (w.Addons name) host.Driver).1
            ("Error transferring addon " ++ name ++ " to VM")),
          [.NewClient, .EnsureMinikubeRunningOrExit, .AddonsLookup name,
            .CheckIfApiExistsAndLoad, .transferAddonViaDriver (w.Addons name) host.Driver]
            ++ (transferAddonViaDriver w (w.Addons name) host.Driver).2 ++ [.Close])
      else
        (.returned (Wrapf (deleteAddonViaDriver w (w.Addons name) host.Driver).1
            ("Error deleting addon " ++ name ++ " from VM")),
          [.NewClient, .EnsureMinikubeRunningOrExit, .AddonsLookup name,
            .CheckIfApiExistsAndLoad, .deleteAddonViaDriver (w.Addons name) host.Driver]
            ++ (deleteAddonViaDriver w (w.Addons name) host.Driver).2 ++ [.Close]) := by
  unfold EnableOrDisableAddon
  rw [hP]
  simp only [hg, hl]
  cases b with
  | true =>
    rcases h : transferAddonViaDriver w (w.Addons name) host.Driver with ⟨_ | e, calls⟩ <;>
      simp [Wrapf]
  | false =>
    rcases h : deleteAddonViaDriver w (w.Addons name) host.Driver with ⟨_ | e, calls⟩ <;>
      simp [Wrapf]

/-- Claim C11: on a value that parses as a boolean, when the cluster guard
returns and the host loads, the helper calls of `EnableOrDisableAddon` are: for
the value true, one call of `transferAddonViaDriver` with `assets.Addons[name]`
and the driver of the loaded host, no call of `deleteAddonViaDriver` and no
call of `sshutil.DeleteAddon`; for the value false, one call of
`deleteAddonViaDriver` with the same arguments, no call of
`transferAddonViaDriver` and no call of `sshutil.TransferAddon`. -/
theorem EnableOrDisableAddon_dispatches_one_helper (w : World) (name val : String)
    (b : Bool) (host : Host) (hP : ParseBool val = (b, none)) (hg : w.guard = none)
    (hl : w.load = .ok host) :
    (b = true →
        (EnableOrDisableAddon w name val).2.filter Event.isHelperCall =
          [.transferAddonViaDriver (w.Addons name) host.Driver] ∧
        ∀ (a : Option Addon) (c : SSHClient),
          Event.DeleteAddon a c ∉ (EnableOrDisableAddon w name val).2) ∧
      (b = false →
        (EnableOrDisableAddon w name val).2.filter Event.isHelperCall =
          [.deleteAddonViaDriver (w.Addons name) host.Driver] ∧
        ∀ (a : Option Addon) (c : SSHClient),
          Event.TransferAddon a c ∉ (EnableOrDisableAddon w name val).2) := by
  rw [EnableOrDisableAddon_of_dispatch w name val b host hP hg hl]
  constructor
  · intro hb
    subst hb
    rcases transferAddonViaDriver_calls w (w.Addons name) host.Driver with h | ⟨client, h⟩ <;>
      simp [h, Event.isHelperCall, List.filter]
  · intro hb
    subst hb
    rcases deleteAddonViaDriver_calls w (w.Addons name) host.Driver with h | ⟨client, h⟩ <;>
      simp [h, Event.isHelperCall, List.filter]

/-- Enabling the addon `dashboard` on a running cluster: the one helper call is
the transfer of the catalog entry of `dashboard` through the driver of the
loaded host. -/
theorem EnableOrDisableAddon_dispatches_one_helper_witness :
    ParseBool "true" = (true, none) ∧ runningCluster.guard = none ∧
      runningCluster.load = .ok ⟨⟨"minikube"⟩⟩ ∧
      (EnableOrDisableAddon runningCluster "dashboard" "true").2.filter Event.isHelperCall =
        [.transferAddonViaDriver (runningCluster.Addons "dashboard") ⟨"minikube"⟩] :=
  ⟨by decide, rfl, rfl,
    ((EnableOrDisableAddon_dispatches_one_helper runningCluster "dashboard" "true" true
      ⟨⟨"minikube"⟩⟩ (by decide) rfl rfl).1 rfl).1⟩

/-- Claim C12: on a value that parses as a boolean, when the cluster guard
returns and the host loads, `EnableOrDisableAddon` returns nil exactly when the
helper it dispatches to returns nil; an error `e` of the transfer comes back
wrapped with the message `Error transferring addon <name> to VM`, an error `e`
of the delete with the message `Error deleting addon <name> from VM`, the text
being the message, a colon and the text of `e`; the helper is called once and
one SSH session is dialed, so nothing is retried. -/
theorem EnableOrDisableAddon_wraps_helper_error (Quote : String → String) (w : World)
    (name val : String) (b : Bool) (host : Host) (hP : ParseBool val = (b, none))
    (hg : w.guard = none) (hl : w.load = .ok host) :
    (b = true →
        ((EnableOrDisableAddon w name val).1 = .returned none ↔
          (transferAddonViaDriver w (w.Addons name) host.Driver).1 = none) ∧
        (∀ e : GoError, (transferAddonViaDriver w (w.Addons name) host.Driver).1 = some e →
          (EnableOrDisableAddon w name val).1 =
            .returned (some (.withMessage e ("Error transferring addon " ++ name ++ " to VM"))) ∧
          (GoError.withMessage e ("Error transferring addon " ++ name ++ " to VM")).Error Quote =
            "Error transferring addon " ++ name ++ " to VM" ++ ": " ++ e.Error Quote) ∧
        (EnableOrDisableAddon w name val).2.countP Event.isHelperCall = 1 ∧
        (EnableOrDisableAddon w name val).2.count (.NewSSHClient host.Driver) = 1) ∧
      (b = false →
        ((EnableOrDisableAddon w name val).1 = .returned none ↔
          (deleteAddonViaDriver w (w.Addons name) host.Driver).1 = none) ∧
        (∀ e : GoError, (deleteAddonViaDriver w (w.Addons name) host.Driver).1 = some e →
          (EnableOrDisableAddon w name val).1 =
            .returned (some (.withMessage e ("Error deleting addon " ++ name ++ " from VM"))) ∧
          (GoError.withMessage e ("Error deleting addon " ++ name ++ " from VM")).Error Quote =
            "Error deleting addon " ++ name ++ " from VM" ++ ": " ++ e.Error Quote) ∧
        (EnableOrDisableAddon w name val).2.countP Event.isHelperCall = 1 ∧
        (EnableOrDisableAddon w name val).2.count (.NewSSHClient host.Driver) = 1) := by
  rw [EnableOrDisableAddon_of_dispatch w name val b host hP hg hl]
  constructor
  · intro hb
    subst hb
    simp only [if_true]
    refine ⟨?_, ?_, ?_, ?_⟩
    · cases (transferAddonViaDriver w (w.Addons name) host.Driver).1 <;> simp [Wrapf]
    · intro e he
      rw [he]
      exact ⟨rfl, rfl⟩
    · rcases transferAddonViaDriver_calls w (w.Addons name) host.Driver with h | ⟨client, h⟩ <;>
        simp [h, Event.isHelperCall, List.countP_cons]
    · rcases transferAddonViaDriver_calls w (w.Addons name) host.Driver with h | ⟨client, h⟩ <;>
        simp [h, List.count_cons]
  · intro hb
    subst hb
    simp only [Bool.false_eq_true, if_false]
    refine ⟨?_, ?_, ?_, ?_⟩
    · cases (deleteAddonViaDriver w (w.Addons name) host.Driver).1 <;> simp [Wrapf]
    · intro e he
      rw [he]
      exact ⟨rfl, rfl⟩
    · rcases deleteAddonViaDriver_calls w (w.Addons name) host.Driver with h | ⟨client, h⟩ <;>
        simp [h, Event.isHelperCall, List.countP_cons]
    · rcases deleteAddonViaDriver_calls w (w.Addons name) host.Driver with h | ⟨client, h⟩ <;>
        simp [h, List.count_cons]

/-- Disabling the addon `dashboard` where the remote removal fails: the error of
the removal comes back wrapped with the addon name and the direction. -/
theorem EnableOrDisableAddon_wraps_helper_error_witness :
    ParseBool "false" = (false, none) ∧ failingRemote.guard = none ∧
      failingRemote.load = .ok ⟨⟨"minikube"⟩⟩ ∧
      (EnableOrDisableAddon failingRemote "dashboard" "false").1 =
        .returned (some (.withMessage (.errorString "Error running rm command")
          "Error deleting addon dashboard from VM")) :=
  ⟨by decide, rfl, rfl,
    (((EnableOrDisableAddon_wraps_helper_error id failingRemote "dashboard" "false" false
      ⟨⟨"minikube"⟩⟩ (by decide) rfl rfl).2 rfl).2.1
        (.errorString "Error running rm command") rfl).1.trans (by decide)⟩

/-! ## The addon toggle on a stopped cluster -/

/-- Claim C13: if the cluster guard fails, the cluster not running when
`EnsureMinikubeRunningOrExit` is called, `EnableOrDisableAddon` makes no remote
call: no helper is called, no SSH session is opened, no addon file is
transferred or deleted. -/
theorem EnableOrDisableAddon_guard_failure_no_remote_call (w : World) (name val : String)
    (status : Nat) (hg : w.guard = some status) :
    (∀ ev ∈ (EnableOrDisableAddon w name val).2, ev.isRemote = false) ∧
      (∀ d : Driver, Event.NewSSHClient d ∉ (EnableOrDisableAddon w name val).2) ∧
      (∀ (a : Option Addon) (c : SSHClient),
        Event.TransferAddon a c ∉ (EnableOrDisableAddon w name val).2 ∧
        Event.DeleteAddon a c ∉ (EnableOrDisableAddon w name val).2) := by
  rw [EnableOrDisableAddon_of_guard_exit w name val status hg]
  simp [Event.isRemote]

/-- Enabling the addon `dashboard` on a stopped cluster opens no SSH session. -/
theorem EnableOrDisableAddon_guard_failure_no_remote_call_witness :
    stoppedCluster.guard = some 0 ∧
      ∀ d : Driver, Event.NewSSHClient d ∉ (EnableOrDisableAddon stoppedCluster "dashboard" "1").2 :=
  ⟨rfl,
    (EnableOrDisableAddon_guard_failure_no_remote_call stoppedCluster "dashboard" "1" 0 rfl).2.1⟩

/-- Claim C14, as the code behaves: when the cluster guard finds the cluster not
running, the call of `EnableOrDisableAddon` ends inside the guard with the exit
of the process, under the status the guard exits with; no error, nil or not, is
returned to the caller, and the deferred `Close` does not run. -/
theorem EnableOrDisableAddon_guard_failure_exits (w : World) (name val : String)
    (status : Nat) (hg : w.guard = some status) :
    (EnableOrDisableAddon w name val).1 = .exited status ∧
      (∀ err : Option GoError, (EnableOrDisableAddon w name val).1 ≠ .returned err) ∧
      (EnableOrDisableAddon w name val).2 = [.NewClient, .EnsureMinikubeRunningOrExit] ∧
      Event.Close ∉ (EnableOrDisableAddon w name val).2 := by
  rw [EnableOrDisableAddon_of_guard_exit w name val status hg]
  simp

/-- Disabling the addon `dashboard` on a stopped cluster ends with the exit of
the process under status 0. -/
theorem EnableOrDisableAddon_guard_failure_exits_witness :
    stoppedCluster.guard = some 0 ∧
      (EnableOrDisableAddon stoppedCluster "dashboard" "false").1 = .exited 0 :=
  ⟨rfl, (EnableOrDisableAddon_guard_failure_exits stoppedCluster "dashboard" "false" 0 rfl).1⟩

/-- Claim C14 fails as stated: enabling the addon `dashboard` on a stopped
cluster returns no non-nil error to the caller; the call ends with the exit of
the process. -/
theorem EnableOrDisableAddon_stopped_cluster_returns_no_error :
    ¬ (∃ err : GoError,
        (EnableOrDisableAddon stoppedCluster "dashboard" "true").1 = .returned (some err)) ∧
      (EnableOrDisableAddon stoppedCluster "dashboard" "true").1 = .exited 0 := by
  have h : (EnableOrDisableAddon stoppedCluster "dashboard" "true").1 = .exited 0 := by decide
  refine ⟨?_, h⟩
  rintro ⟨err, he⟩
  rw [h] at he
  exact Outcome.noConfusion he

/-! ## The addon toggle when the host does not load -/

/-- Claim C17, as the code behaves: on a value that parses as a boolean, when the
guard returns and `CheckIfApiExistsAndLoad` returns an error and no host, the
error is not returned: `host.Driver` is read on the missing host and the call
panics, after the deferred `Close`; no transfer and no delete is attempted. -/
theorem EnableOrDisableAddon_load_error_panics (w : World) (name val : String) (b : Bool)
    (e : GoError) (hP : ParseBool val = (b, none)) (hg : w.guard = none)
    (hl : w.load = .error e) :
    (EnableOrDisableAddon w name val).1 = .panicked ∧
      (EnableOrDisableAddon w name val).1 ≠ .returned (some e) ∧
      (EnableOrDisableAddon w name val).2 =
        [.NewClient, .EnsureMinikubeRunningOrExit, .AddonsLookup name,
          .CheckIfApiExistsAndLoad, .Close] ∧
      ∀ ev ∈ (EnableOrDisableAddon w name val).2, ev.isRemote = false := by
  rw [EnableOrDisableAddon_of_load_error w name val b e hP hg hl]
  simp [Event.isRemote]

/-- Enabling the addon `dashboard` where the host does not load: the call
panics instead of returning the error of the load. -/
theorem EnableOrDisableAddon_load_error_panics_witness :
    ParseBool "true" = (true, none) ∧ hostNotLoaded.guard = none ∧
      hostNotLoaded.load = .error (.errorString "Error loading api for: minikube") ∧
      (EnableOrDisableAddon hostNotLoaded "dashboard" "true").1 = .panicked :=
  ⟨by decide, rfl, rfl,
    (EnableOrDisableAddon_load_error_panics hostNotLoaded "dashboard" "true" true
      (.errorString "Error loading api for: minikube") (by decide) rfl rfl).1⟩

/-! ## Release of the connections -/

/-- Claim C15, as the code behaves: on every return path of
`EnableOrDisableAddon` (parse failure, failure of the remote operation,
success) the client made by `libmachine.NewClient` is made once and closed
once, the closing being the last call; the SSH session a helper opened is not
closed: no call closes an SSH session. -/
theorem EnableOrDisableAddon_closes_client_once (w : World) (name val : String)
    (err : Option GoError) (h : (EnableOrDisableAddon w name val).1 = .returned err) :
    (EnableOrDisableAddon w name val).2.count .NewClient = 1 ∧
      (EnableOrDisableAddon w name val).2.count .Close = 1 ∧
      (EnableOrDisableAddon w name val).2.getLast? = some .Close ∧
      ∀ c : SSHClient, Event.SSHClientClose c ∉ (EnableOrDisableAddon w name val).2 := by
  rcases hP : ParseBool val with ⟨b, perr⟩
  cases hg : w.guard with
  | some status =>
    rw [EnableOrDisableAddon_of_guard_exit w name val status hg] at h
    exact Outcome.noConfusion h
  | none =>
    cases perr with
    | some e =>
      rw [EnableOrDisableAddon_of_parse_error w name val b e hP, hg]
      simp [List.count_cons]
    | none =>
      cases hl : w.load with
      | error e =>
        rw [EnableOrDisableAddon_of_load_error w name val b e hP hg hl] at h
        exact Outcome.noConfusion h
      | ok host =>
        rw [EnableOrDisableAddon_of_dispatch w name val b host hP hg hl]
        cases b with
        | true =>
          rcases transferAddonViaDriver_calls w (w.Addons name) host.Driver with
            h2 | ⟨client, h2⟩ <;> simp [h2, List.count_cons]
        | false =>
          rcases deleteAddonViaDriver_calls w (w.Addons name) host.Driver with
            h2 | ⟨client, h2⟩ <;> simp [h2, List.count_cons]

/-- Enabling the addon `dashboard` on a running cluster returns nil, and the
client is closed once, by the last call. -/
theorem EnableOrDisableAddon_closes_client_once_witness :
    (EnableOrDisableAddon runningCluster "dashboard" "true").1 = .returned none ∧
      (EnableOrDisableAddon runningCluster "dashboard" "true").2.count .Close = 1 ∧
      (EnableOrDisableAddon runningCluster "dashboard" "true").2.getLast? = some .Close :=
  ⟨by decide,
    (EnableOrDisableAddon_closes_client_once runningCluster "dashboard" "true" none
      (by decide)).2.1,
    (EnableOrDisableAddon_closes_client_once runningCluster "dashboard" "true" none
      (by decide)).2.2.1⟩

/-- Claim C15 fails as stated: enabling the addon `dashboard` on a running
cluster returns nil with an SSH session opened and not closed. -/
theorem EnableOrDisableAddon_leaves_session_open :
    (EnableOrDisableAddon runningCluster "dashboard" "t").1 = .returned none ∧
      Event.NewSSHClient ⟨"minikube"⟩ ∈ (EnableOrDisableAddon runningCluster "dashboard" "t").2 ∧
      runningCluster.NewSSHClient ⟨"minikube"⟩ = .ok ⟨⟨"minikube"⟩⟩ ∧
      Event.SSHClientClose ⟨⟨"minikube"⟩⟩ ∉ (EnableOrDisableAddon runningCluster "dashboard" "t").2 ∧
      sessionsClosed runningCluster (EnableOrDisableAddon runningCluster "dashboard" "t").2 =
        false := by
  refine ⟨by decide, by decide, rfl, by decide, by decide⟩

/-! ## `run` keeps the writes of the setters that succeed -/

/-- Claim C16: `run` is not transactional. With the value `abc` and the setters
`SetString` then `SetInt` on an empty allocated store, `run` returns a non-nil
error and the store, which had no key `cpus`, holds the string `abc` under
`cpus` afterwards; and for every setter list the state after `run` is the state
the setters leave when called one after the other, so no write is undone. -/
theorem run_keeps_writes_of_succeeding_setters (Quote : String → String) :
    ((run Quote "cpus" "abc" [onStore SetString, onStore (SetInt 64)]
          (some (.alloc (fun _ => none)))).1 ≠ none ∧
      (MinikubeConfig.alloc (fun _ => none)).get "cpus" = none ∧
      ∃ m1, (run Quote "cpus" "abc" [onStore SetString, onStore (SetInt 64)]
          (some (.alloc (fun _ => none)))).2 = some m1 ∧
        m1.get "cpus" = some (.str "abc")) ∧
      ∀ (σ : Type) (name value : String) (fns : List (setFn σ)) (s : σ),
        (run Quote name value fns s).2 = fns.foldl (fun st fn => (fn name value st).2) s := by
  have hS : SetInt 64 (.alloc (fun k => if k = "cpus" then some (.str "abc") else none))
      "cpus" "abc" = .returned (some (.numError "ParseInt" "abc" .ErrSyntax))
        (.alloc (fun k => if k = "cpus" then some (.str "abc") else none)) :=
    SetInt_of_parse_error 64 _ "cpus" "abc" 0 _ (by decide)
  have hinv : invocations "cpus" "abc" [onStore SetString, onStore (SetInt 64)]
      (some (.alloc (fun _ => none))) =
      [none, some (.numError "ParseInt" "abc" .ErrSyntax)] := by
    simp [invocations, onStore, SetString, MinikubeConfig.assign, hS]
  refine ⟨⟨?_, rfl, ?_⟩, fun σ name value fns s => run_snd Quote name value fns s⟩
  · rw [run_fst, hinv]
    simp
  · rw [run_snd]
    refine ⟨.alloc (fun k => if k = "cpus" then some (.str "abc") else none), ?_, ?_⟩
    · simp [onStore, SetString, MinikubeConfig.assign, hS]
    · simp [MinikubeConfig.get]

end Minikube
